import Mathlib

/-!
# Active L2 endpoint provider (`op-service/dial/active_l2_provider.go`)

A shallow embedding of `ActiveL2EndpointProvider`: the constructor
`newActiveL2EndpointProvider`, the method `EthClient` and the method `Close`.

Conventions of the embedding.

* A value of the Go interface type `EthClientInterface` is an `Option Client`:
  `none` is the nil interface, `some c` is the handle `c`.  Handles are told apart
  by a natural number.
* A Go `error` is an `Option Error`: `none` is `nil`.
* The collaborators that are not part of this source file are inputs of the model:
  what `ensureActiveEndpoint`, the injected `ethDialer` and
  `newActiveL2RollupProvider` do during one call is given by a `CallEnv`
  (respectively a `CtorEnv`).  They are arbitrary, so every theorem quantifies over
  all behaviours of the selector and of the dialer.
* Every call of a collaborator is recorded in a trace of `Event`s, in program order.
* A Go run-time panic (index out of range, method call on a nil interface, nil
  pointer dereference) is the outcome `Outcome.panic`.
* `clientLock` and the logger have no sequential effect and are left out; the
  `context.Context` arguments are left out, the `timeout` argument is kept.
-/

namespace Dial

/-- Identity of a dialed execution client handle. -/
abbrev Client := Nat

/-- Go `error` values: an error coming from a collaborator, `errors.New msg`, and
`fmt.Errorf (pre ++ ": %w") inner`. -/
inductive Error where
  | ext (code : Nat)
  | new (msg : String)
  | wrapf (pre : String) (inner : Error)
  deriving DecidableEq, Repr

/-- The relation `errors.Is`-style unwrapping: `e` wraps `inner` when `inner` is
reached from `e` by removing `fmt.Errorf` layers (zero or more). -/
def Error.wraps : Error → Error → Bool
  | e, inner =>
    if e = inner then true
    else match e with
      | .wrapf _ e1 => Error.wraps e1 inner
      | _ => false

/-- The fields of the embedded `ActiveL2RollupProvider` that this file reads
(`p.rollupIndex`, `p.networkTimeout`); `rest` stands for all its other state. -/
structure ActiveL2RollupProvider where
  rollupIndex : Int
  networkTimeout : Nat
  rest : Nat
  deriving DecidableEq, Repr

/-- The struct `ActiveL2EndpointProvider` (the `ethDialer` field is part of the
environment, see `CallEnv`). -/
structure ActiveL2EndpointProvider where
  rollup : ActiveL2RollupProvider
  currentEthClient : Option Client
  ethClientIndex : Int
  ethUrls : List String
  deriving DecidableEq, Repr

/-- Calls made to collaborators, in program order. -/
inductive Event where
  /-- A call `newActiveL2RollupProvider(ctx, rollupUrls, ...)`. -/
  | newRollupProvider (rollupUrls : List String)
  /-- A call `p.ensureActiveEndpoint(ctx)`. -/
  | ensureActiveEndpoint
  /-- A call `p.ethDialer(cctx, timeout, p.log, url)` together with what it returned. -/
  | ethDial (timeout : Nat) (url : String) (client : Option Client) (err : Option Error)
  /-- A call `c.Close()` on an execution client. -/
  | ethClose (c : Client)
  /-- A call `p.ActiveL2RollupProvider.Close()`. -/
  | rollupProviderClose
  deriving DecidableEq, Repr

/-- How a Go function call ends: it returns `v`, or it panics. -/
inductive Outcome (α : Type) where
  | ret (v : α)
  | panic
  deriving DecidableEq, Repr

/-- The result of running a method: the receiver afterwards, the collaborator calls
made, and how the call ended. -/
structure Run (α : Type) where
  state : ActiveL2EndpointProvider
  trace : List Event
  result : Outcome α

/-- What the collaborators do during one call of `EthClient`:
`ensureActiveEndpoint` acts on the embedded rollup provider and returns an error or
nil; `ethDialer timeout url` returns `(client, err)`. -/
structure CallEnv where
  ensureActiveEndpoint : ActiveL2RollupProvider → ActiveL2RollupProvider × Option Error
  ethDialer : Nat → String → Option Client × Option Error

/-- Go slice indexing `xs[i]` with an `int` index: `none` is the out-of-range panic. -/
def index (xs : List String) (i : Int) : Option String :=
  if 0 ≤ i then xs[i.toNat]? else none

/-- The method `(*ActiveL2EndpointProvider).EthClient`. -/
def EthClient (env : CallEnv) (p : ActiveL2EndpointProvider) :
    Run (Option Client × Option Error) :=
  -- err := p.ensureActiveEndpoint(ctx)
  let r := env.ensureActiveEndpoint p.rollup
  let p1 : ActiveL2EndpointProvider := { p with rollup := r.1 }
  match r.2 with
  | some err => ⟨p1, [Event.ensureActiveEndpoint], .ret (none, some err)⟩
  | none =>
    if p1.ethClientIndex ≠ p1.rollup.rollupIndex ∨ p1.currentEthClient = none then
      -- p.ethClientIndex = p.rollupIndex
      let p2 : ActiveL2EndpointProvider := { p1 with ethClientIndex := p1.rollup.rollupIndex }
      -- ep := p.ethUrls[p.ethClientIndex]
      match index p2.ethUrls p2.ethClientIndex with
      | none => ⟨p2, [Event.ensureActiveEndpoint], .panic⟩
      | some ep =>
        -- ethClient, err := p.ethDialer(cctx, p.networkTimeout, p.log, ep)
        let d := env.ethDialer p2.rollup.networkTimeout ep
        let dialed := Event.ethDial p2.rollup.networkTimeout ep d.1 d.2
        match d.2 with
        | some err =>
          ⟨p2, [Event.ensureActiveEndpoint, dialed],
            .ret (none, some (Error.wrapf "dialing eth client" err))⟩
        | none =>
          match p2.currentEthClient with
          | some c =>
            -- p.currentEthClient.Close(); p.currentEthClient = ethClient
            ⟨{ p2 with currentEthClient := d.1 },
              [Event.ensureActiveEndpoint, dialed, Event.ethClose c], .ret (d.1, none)⟩
          | none =>
            ⟨{ p2 with currentEthClient := d.1 },
              [Event.ensureActiveEndpoint, dialed], .ret (d.1, none)⟩
    else
      ⟨p1, [Event.ensureActiveEndpoint], .ret (p1.currentEthClient, none)⟩

/-- The method `(*ActiveL2EndpointProvider).Close`: `p.currentEthClient.Close()` is a
method call on an interface value, which panics when the interface is nil. -/
def Close (p : ActiveL2EndpointProvider) : Run Unit :=
  match p.currentEthClient with
  | none => ⟨p, [], .panic⟩
  | some c => ⟨p, [Event.ethClose c, Event.rollupProviderClose], .ret ()⟩

/-- What the collaborators do during one call of `newActiveL2EndpointProvider`:
`newActiveL2RollupProvider rollupUrls checkDuration networkTimeout` returns
`(rollupProvider, err)`, and `call` is the behaviour during the `EthClient` probe. -/
structure CtorEnv where
  newActiveL2RollupProvider :
    List String → Nat → Nat → Option ActiveL2RollupProvider × Option Error
  call : CallEnv

/-- The result of running the constructor: collaborator calls made and the returned
`(*ActiveL2EndpointProvider, error)` pair (or a panic). -/
structure CtorRun where
  trace : List Event
  result : Outcome (Option ActiveL2EndpointProvider × Option Error)

/-- The function `newActiveL2EndpointProvider`. -/
def newActiveL2EndpointProvider (env : CtorEnv) (ethUrls rollupUrls : List String)
    (checkDuration networkTimeout : Nat) : CtorRun :=
  if rollupUrls.length = 0 then
    ⟨[], .ret (none, some (Error.new "empty rollup urls list"))⟩
  else if ethUrls.length ≠ rollupUrls.length then
    ⟨[], .ret (none, some (Error.new "number of eth urls and rollup urls mismatch"))⟩
  else
    let created := Event.newRollupProvider rollupUrls
    match env.newActiveL2RollupProvider rollupUrls checkDuration networkTimeout with
    | (_, some err) => ⟨[created], .ret (none, some err)⟩
    -- `*rollupProvider` on a nil pointer
    | (none, none) => ⟨[created], .panic⟩
    | (some rollupProvider, none) =>
      let ep : ActiveL2EndpointProvider :=
        { rollup := rollupProvider, currentEthClient := none, ethClientIndex := 0,
          ethUrls := ethUrls }
      let r := EthClient env.call ep
      match r.result with
      | .panic => ⟨created :: r.trace, .panic⟩
      | .ret (_, some err) =>
        ⟨created :: r.trace, .ret (none, some (Error.wrapf "dialing eth client" err))⟩
      | .ret (_, none) => ⟨created :: r.trace, .ret (some r.state, none)⟩

/-- A sequence of `EthClient` calls, one environment per call, starting from `p` with
the trace `t` so far; returns the final receiver, the whole trace and the outcome of
every call, in order. -/
def runEthClient :
    List CallEnv → ActiveL2EndpointProvider → List Event →
      ActiveL2EndpointProvider × List Event × List (Outcome (Option Client × Option Error))
  | [], p, t => (p, t, [])
  | env :: envs, p, t =>
    let r := EthClient env p
    let rest := runEthClient envs r.state (t ++ r.trace)
    (rest.1, rest.2.1, r.result :: rest.2.2)

/-- Number of `ethDial` events in a trace. -/
def dialCount (t : List Event) : Nat :=
  (t.filter fun e => match e with | .ethDial _ _ _ _ => true | _ => false).length

/-- Number of `c.Close()` events for the handle `c` in a trace. -/
def closeCount (c : Client) (t : List Event) : Nat :=
  t.count (Event.ethClose c)

/-- Number of `ethClose` events (for any handle) in a trace. -/
def closeTotal (t : List Event) : Nat :=
  (t.filter fun e => match e with | .ethClose _ => true | _ => false).length

/-- The handles that the dialer has returned together with a nil error, in order. -/
def dialedClients (t : List Event) : List Client :=
  t.filterMap fun e => match e with
    | .ethDial _ _ (some c) none => some c
    | _ => none

/-! ## Concrete collaborators and receivers used in the examples -/

/-- An `ensureActiveEndpoint` that returns nil and leaves the active index at `j`. -/
def selects (j : Int) (rp : ActiveL2RollupProvider) : ActiveL2RollupProvider × Option Error :=
  ({ rp with rollupIndex := j }, none)

/-- An `ensureActiveEndpoint` that returns the error `ext code` and changes nothing. -/
def selectFails (code : Nat) (rp : ActiveL2RollupProvider) :
    ActiveL2RollupProvider × Option Error :=
  (rp, some (Error.ext code))

/-- Active index `j`; every dial returns the handle `c` and a nil error. -/
def envDials (j : Int) (c : Client) : CallEnv :=
  ⟨selects j, fun _ _ => (some c, none)⟩

/-- Active index `j`; every dial returns a nil client and the error `ext code`. -/
def envDialFails (j : Int) (code : Nat) : CallEnv :=
  ⟨selects j, fun _ _ => (none, some (Error.ext code))⟩

/-- Active index `j`; every dial returns a nil client and a nil error. -/
def envDialsNil (j : Int) : CallEnv :=
  ⟨selects j, fun _ _ => (none, none)⟩

/-- The selector fails with `ext code`; dials (never reached) would return `c`. -/
def envSelectFails (code : Nat) (c : Client) : CallEnv :=
  ⟨selectFails code, fun _ _ => (some c, none)⟩

/-- The endpoint list `["e0", "e1"]`. -/
def twoUrls : List String := ["e0", "e1"]

/-- A receiver over `twoUrls` whose cached client `c` was dialed for index `i`. -/
def cachedAt (i : Int) (c : Client) : ActiveL2EndpointProvider :=
  { rollup := { rollupIndex := i, networkTimeout := 5, rest := 0 },
    currentEthClient := some c, ethClientIndex := i, ethUrls := twoUrls }

/-- The receiver as the constructor builds it, before the first `EthClient` call. -/
def freshProvider : ActiveL2EndpointProvider :=
  { rollup := { rollupIndex := 0, networkTimeout := 5, rest := 0 },
    currentEthClient := none, ethClientIndex := 0, ethUrls := twoUrls }

/-- Along the calls of `envs` started at `p`, every `ensureActiveEndpoint` returns nil
and leaves the active index at `j`. -/
def EnsureKeeps (j : Int) : List CallEnv → ActiveL2EndpointProvider → Prop
  | [], _ => True
  | env :: envs, p =>
    (env.ensureActiveEndpoint p.rollup).2 = none ∧
    (env.ensureActiveEndpoint p.rollup).1.rollupIndex = j ∧
    EnsureKeeps j envs (EthClient env p).state

/-- The rollup list `["r0", "r1"]`. -/
def twoRollupUrls : List String := ["r0", "r1"]

/-- A constructor environment: the rollup provider is built with active index `0` and
the given network timeout, and the `EthClient` probe runs in `call`. -/
def ctorEnv (call : CallEnv) : CtorEnv :=
  ⟨fun _ _ networkTimeout =>
    (some { rollupIndex := 0, networkTimeout := networkTimeout, rest := 0 }, none), call⟩

/-- Along the calls of `envs` started at `p`, whenever `ensureActiveEndpoint` returns
nil it leaves the active index at `j` (calls in which it returns an error are
unconstrained). -/
def EnsureStays (j : Int) : List CallEnv → ActiveL2EndpointProvider → Prop
  | [], _ => True
  | env :: envs, p =>
    ((env.ensureActiveEndpoint p.rollup).2 = none →
      (env.ensureActiveEndpoint p.rollup).1.rollupIndex = j) ∧
    EnsureStays j envs (EthClient env p).state

/-- Along the calls of `envs` started at `p`, whenever `ensureActiveEndpoint` returns
nil it leaves the active index in `[0, n)`. -/
def EnsureInRange (n : Nat) : List CallEnv → ActiveL2EndpointProvider → Prop
  | [], _ => True
  | env :: envs, p =>
    ((env.ensureActiveEndpoint p.rollup).2 = none →
      0 ≤ (env.ensureActiveEndpoint p.rollup).1.rollupIndex ∧
      (env.ensureActiveEndpoint p.rollup).1.rollupIndex < n) ∧
    EnsureInRange n envs (EthClient env p).state

/-- The dialer of `env` returns a non-nil client whenever it returns a nil error. -/
def DialsNonNil (env : CallEnv) : Prop :=
  ∀ timeout url, (env.ethDialer timeout url).2 = none → (env.ethDialer timeout url).1 ≠ none

/-! ## The branches of `EthClient` -/

/-- When `ensureActiveEndpoint` returns an error, `EthClient` returns it at once. -/
theorem EthClient_of_ensure_err (env : CallEnv) (p : ActiveL2EndpointProvider) (e : Error)
    (h : (env.ensureActiveEndpoint p.rollup).2 = some e) :
    EthClient env p =
      ⟨{ p with rollup := (env.ensureActiveEndpoint p.rollup).1 },
        [Event.ensureActiveEndpoint], .ret (none, some e)⟩ := by
  simp [EthClient, h]

/-- When the index is unchanged and a client is cached, `EthClient` returns the
cached client and calls nothing else. -/
theorem EthClient_of_cached (env : CallEnv) (p : ActiveL2EndpointProvider) (c : Client)
    (h : (env.ensureActiveEndpoint p.rollup).2 = none)
    (hi : p.ethClientIndex = (env.ensureActiveEndpoint p.rollup).1.rollupIndex)
    (hc : p.currentEthClient = some c) :
    EthClient env p =
      ⟨{ p with rollup := (env.ensureActiveEndpoint p.rollup).1 },
        [Event.ensureActiveEndpoint], .ret (some c, none)⟩ := by
  simp [EthClient, h, hi, hc]

/-- When a dial is due and the index is out of range, `EthClient` panics after having
recorded the index. -/
theorem EthClient_of_range (env : CallEnv) (p : ActiveL2EndpointProvider)
    (h : (env.ensureActiveEndpoint p.rollup).2 = none)
    (hd : p.ethClientIndex ≠ (env.ensureActiveEndpoint p.rollup).1.rollupIndex ∨
      p.currentEthClient = none)
    (hu : index p.ethUrls (env.ensureActiveEndpoint p.rollup).1.rollupIndex = none) :
    EthClient env p =
      ⟨{ p with rollup := (env.ensureActiveEndpoint p.rollup).1,
                ethClientIndex := (env.ensureActiveEndpoint p.rollup).1.rollupIndex },
        [Event.ensureActiveEndpoint], .panic⟩ := by
  simp [EthClient, h, hd, hu]

/-- When a dial is due and the dialer returns an error, `EthClient` returns the
wrapped error and keeps the cached client. -/
theorem EthClient_of_dial_err (env : CallEnv) (p : ActiveL2EndpointProvider)
    (url : String) (e : Error)
    (h : (env.ensureActiveEndpoint p.rollup).2 = none)
    (hd : p.ethClientIndex ≠ (env.ensureActiveEndpoint p.rollup).1.rollupIndex ∨
      p.currentEthClient = none)
    (hu : index p.ethUrls (env.ensureActiveEndpoint p.rollup).1.rollupIndex = some url)
    (he : (env.ethDialer (env.ensureActiveEndpoint p.rollup).1.networkTimeout url).2 = some e) :
    EthClient env p =
      ⟨{ p with rollup := (env.ensureActiveEndpoint p.rollup).1,
                ethClientIndex := (env.ensureActiveEndpoint p.rollup).1.rollupIndex },
        [Event.ensureActiveEndpoint,
          Event.ethDial (env.ensureActiveEndpoint p.rollup).1.networkTimeout url
            (env.ethDialer (env.ensureActiveEndpoint p.rollup).1.networkTimeout url).1 (some e)],
        .ret (none, some (Error.wrapf "dialing eth client" e))⟩ := by
  simp [EthClient, h, hd, hu, he]

/-- When a dial is due and succeeds while a client `c` is cached, `c` is closed after
the dial and the new client is installed and returned. -/
theorem EthClient_of_dial_swap (env : CallEnv) (p : ActiveL2EndpointProvider)
    (url : String) (c : Client)
    (h : (env.ensureActiveEndpoint p.rollup).2 = none)
    (hd : p.ethClientIndex ≠ (env.ensureActiveEndpoint p.rollup).1.rollupIndex)
    (hu : index p.ethUrls (env.ensureActiveEndpoint p.rollup).1.rollupIndex = some url)
    (he : (env.ethDialer (env.ensureActiveEndpoint p.rollup).1.networkTimeout url).2 = none)
    (hc : p.currentEthClient = some c) :
    EthClient env p =
      ⟨{ p with rollup := (env.ensureActiveEndpoint p.rollup).1,
                ethClientIndex := (env.ensureActiveEndpoint p.rollup).1.rollupIndex,
                currentEthClient :=
                  (env.ethDialer (env.ensureActiveEndpoint p.rollup).1.networkTimeout url).1 },
        [Event.ensureActiveEndpoint,
          Event.ethDial (env.ensureActiveEndpoint p.rollup).1.networkTimeout url
            (env.ethDialer (env.ensureActiveEndpoint p.rollup).1.networkTimeout url).1 none,
          Event.ethClose c],
        .ret ((env.ethDialer (env.ensureActiveEndpoint p.rollup).1.networkTimeout url).1,
          none)⟩ := by
  simp [EthClient, h, hd, hu, he, hc]

/-- When no client is cached and the dial succeeds, the new client is installed and
returned and nothing is closed. -/
theorem EthClient_of_dial_first (env : CallEnv) (p : ActiveL2EndpointProvider)
    (url : String)
    (h : (env.ensureActiveEndpoint p.rollup).2 = none)
    (hu : index p.ethUrls (env.ensureActiveEndpoint p.rollup).1.rollupIndex = some url)
    (he : (env.ethDialer (env.ensureActiveEndpoint p.rollup).1.networkTimeout url).2 = none)
    (hc : p.currentEthClient = none) :
    EthClient env p =
      ⟨{ p with rollup := (env.ensureActiveEndpoint p.rollup).1,
                ethClientIndex := (env.ensureActiveEndpoint p.rollup).1.rollupIndex,
                currentEthClient :=
                  (env.ethDialer (env.ensureActiveEndpoint p.rollup).1.networkTimeout url).1 },
        [Event.ensureActiveEndpoint,
          Event.ethDial (env.ensureActiveEndpoint p.rollup).1.networkTimeout url
            (env.ethDialer (env.ensureActiveEndpoint p.rollup).1.networkTimeout url).1 none],
        .ret ((env.ethDialer (env.ensureActiveEndpoint p.rollup).1.networkTimeout url).1,
          none)⟩ := by
  simp [EthClient, h, hu, he, hc]

/-- Case analysis on one `EthClient` call: a property of the run holds as soon as it
holds for each of the six ways the method body can be traversed. -/
theorem EthClient_cases (env : CallEnv) (p : ActiveL2EndpointProvider)
    (P : Run (Option Client × Option Error) → Prop)
    (h_ensure : ∀ e, (env.ensureActiveEndpoint p.rollup).2 = some e →
      P ⟨{ p with rollup := (env.ensureActiveEndpoint p.rollup).1 },
        [Event.ensureActiveEndpoint], .ret (none, some e)⟩)
    (h_cached : ∀ c, (env.ensureActiveEndpoint p.rollup).2 = none →
      p.ethClientIndex = (env.ensureActiveEndpoint p.rollup).1.rollupIndex →
      p.currentEthClient = some c →
      P ⟨{ p with rollup := (env.ensureActiveEndpoint p.rollup).1 },
        [Event.ensureActiveEndpoint], .ret (some c, none)⟩)
    (h_range : (env.ensureActiveEndpoint p.rollup).2 = none →
      (p.ethClientIndex ≠ (env.ensureActiveEndpoint p.rollup).1.rollupIndex ∨
        p.currentEthClient = none) →
      index p.ethUrls (env.ensureActiveEndpoint p.rollup).1.rollupIndex = none →
      P ⟨{ p with rollup := (env.ensureActiveEndpoint p.rollup).1,
                  ethClientIndex := (env.ensureActiveEndpoint p.rollup).1.rollupIndex },
        [Event.ensureActiveEndpoint], .panic⟩)
    (h_dial_err : ∀ url e, (env.ensureActiveEndpoint p.rollup).2 = none →
      (p.ethClientIndex ≠ (env.ensureActiveEndpoint p.rollup).1.rollupIndex ∨
        p.currentEthClient = none) →
      index p.ethUrls (env.ensureActiveEndpoint p.rollup).1.rollupIndex = some url →
      (env.ethDialer (env.ensureActiveEndpoint p.rollup).1.networkTimeout url).2 = some e →
      P ⟨{ p with rollup := (env.ensureActiveEndpoint p.rollup).1,
                  ethClientIndex := (env.ensureActiveEndpoint p.rollup).1.rollupIndex },
        [Event.ensureActiveEndpoint,
          Event.ethDial (env.ensureActiveEndpoint p.rollup).1.networkTimeout url
            (env.ethDialer (env.ensureActiveEndpoint p.rollup).1.networkTimeout url).1 (some e)],
        .ret (none, some (Error.wrapf "dialing eth client" e))⟩)
    (h_swap : ∀ url c, (env.ensureActiveEndpoint p.rollup).2 = none →
      p.ethClientIndex ≠ (env.ensureActiveEndpoint p.rollup).1.rollupIndex →
      index p.ethUrls (env.ensureActiveEndpoint p.rollup).1.rollupIndex = some url →
      (env.ethDialer (env.ensureActiveEndpoint p.rollup).1.networkTimeout url).2 = none →
      p.currentEthClient = some c →
      P ⟨{ p with rollup := (env.ensureActiveEndpoint p.rollup).1,
                  ethClientIndex := (env.ensureActiveEndpoint p.rollup).1.rollupIndex,
                  currentEthClient :=
                    (env.ethDialer (env.ensureActiveEndpoint p.rollup).1.networkTimeout url).1 },
        [Event.ensureActiveEndpoint,
          Event.ethDial (env.ensureActiveEndpoint p.rollup).1.networkTimeout url
            (env.ethDialer (env.ensureActiveEndpoint p.rollup).1.networkTimeout url).1 none,
          Event.ethClose c],
        .ret ((env.ethDialer (env.ensureActiveEndpoint p.rollup).1.networkTimeout url).1,
          none)⟩)
    (h_first : ∀ url, (env.ensureActiveEndpoint p.rollup).2 = none →
      index p.ethUrls (env.ensureActiveEndpoint p.rollup).1.rollupIndex = some url →
      (env.ethDialer (env.ensureActiveEndpoint p.rollup).1.networkTimeout url).2 = none →
      p.currentEthClient = none →
      P ⟨{ p with rollup := (env.ensureActiveEndpoint p.rollup).1,
                  ethClientIndex := (env.ensureActiveEndpoint p.rollup).1.rollupIndex,
                  currentEthClient :=
                    (env.ethDialer (env.ensureActiveEndpoint p.rollup).1.networkTimeout url).1 },
        [Event.ensureActiveEndpoint,
          Event.ethDial (env.ensureActiveEndpoint p.rollup).1.networkTimeout url
            (env.ethDialer (env.ensureActiveEndpoint p.rollup).1.networkTimeout url).1 none],
        .ret ((env.ethDialer (env.ensureActiveEndpoint p.rollup).1.networkTimeout url).1,
          none)⟩) :
    P (EthClient env p) := by
  rcases h2 : (env.ensureActiveEndpoint p.rollup).2 with _ | e2
  · by_cases hd : p.ethClientIndex ≠ (env.ensureActiveEndpoint p.rollup).1.rollupIndex ∨
        p.currentEthClient = none
    · rcases hu : index p.ethUrls (env.ensureActiveEndpoint p.rollup).1.rollupIndex
        with _ | url
      · rw [EthClient_of_range env p h2 hd hu]
        exact h_range h2 hd hu
      · rcases he : (env.ethDialer
            (env.ensureActiveEndpoint p.rollup).1.networkTimeout url).2 with _ | e
        · rcases hc : p.currentEthClient with _ | c
          · rw [EthClient_of_dial_first env p url h2 hu he hc]
            exact h_first url h2 hu he hc
          · have hi : p.ethClientIndex ≠
                (env.ensureActiveEndpoint p.rollup).1.rollupIndex := by
              rcases hd with hd | hd
              · exact hd
              · rw [hc] at hd; cases hd
            rw [EthClient_of_dial_swap env p url c h2 hi hu he hc]
            exact h_swap url c h2 hi hu he hc
        · rw [EthClient_of_dial_err env p url e h2 hd hu he]
          exact h_dial_err url e h2 hd hu he
    · have hi : p.ethClientIndex = (env.ensureActiveEndpoint p.rollup).1.rollupIndex := by
        by_contra hne
        exact hd (Or.inl hne)
      rcases hc : p.currentEthClient with _ | c
      · exact absurd (Or.inr hc) hd
      · rw [EthClient_of_cached env p c h2 hi hc]
        exact h_cached c h2 hi hc
  · rw [EthClient_of_ensure_err env p e2 h2]
    exact h_ensure e2 h2

/-! ## Redial on index change -/

/-- C1, as stated, fails when the redial returns an error: with client `7` cached for
index `0`, the selector moving to index `1` and the dial to `"e1"` failing, the dialer
is invoked once but `Close` is invoked zero times on `7`, the call returns a nil client
and `7` stays cached. -/
theorem EthClient_index_change_counterexample :
    (cachedAt 0 7).currentEthClient = some 7 ∧ (cachedAt 0 7).ethClientIndex = 0 ∧
    (envDialFails 1 3).ensureActiveEndpoint (cachedAt 0 7).rollup =
      ({ rollupIndex := 1, networkTimeout := 5, rest := 0 }, none) ∧
    index (cachedAt 0 7).ethUrls 1 = some "e1" ∧
    dialCount (EthClient (envDialFails 1 3) (cachedAt 0 7)).trace = 1 ∧
    closeCount 7 (EthClient (envDialFails 1 3) (cachedAt 0 7)).trace = 0 ∧
    (EthClient (envDialFails 1 3) (cachedAt 0 7)).result =
      .ret (none, some (Error.wrapf "dialing eth client" (Error.ext 3))) ∧
    (EthClient (envDialFails 1 3) (cachedAt 0 7)).state.currentEthClient = some 7 := by
  decide

/-- C1 (amended): if a client `c` is cached for index `i`, `ensureActiveEndpoint`
succeeds and leaves the active index at `j ≠ i`, and `ethUrls[j]` exists, then the
dialer is invoked exactly once, with url `ethUrls[j]`; if that dial returns a nil
error the trace is exactly ensure, dial, `c.Close()` (so `c` is closed once, after the
dial), the dialed client is cached and returned; if it returns an error nothing is
closed and `c` stays cached. -/
theorem EthClient_index_change (env : CallEnv) (p : ActiveL2EndpointProvider)
    (c : Client) (i j : Int) (rp : ActiveL2RollupProvider) (url : String)
    (cl : Option Client) (err : Option Error)
    (hc : p.currentEthClient = some c) (hi : p.ethClientIndex = i)
    (hens : env.ensureActiveEndpoint p.rollup = (rp, none))
    (hj : rp.rollupIndex = j) (hne : j ≠ i)
    (hurl : index p.ethUrls j = some url)
    (hdial : env.ethDialer rp.networkTimeout url = (cl, err)) :
    dialCount (EthClient env p).trace = 1 ∧
    Event.ethDial rp.networkTimeout url cl err ∈ (EthClient env p).trace ∧
    (err = none →
      (EthClient env p).trace =
        [Event.ensureActiveEndpoint, Event.ethDial rp.networkTimeout url cl none,
          Event.ethClose c] ∧
      closeCount c (EthClient env p).trace = 1 ∧
      (EthClient env p).state.currentEthClient = cl ∧
      (EthClient env p).result = .ret (cl, none)) ∧
    (err ≠ none →
      closeTotal (EthClient env p).trace = 0 ∧
      (EthClient env p).state.currentEthClient = some c) := by
  subst hi hj
  have h2 : (env.ensureActiveEndpoint p.rollup).2 = none := by rw [hens]
  have h1 : (env.ensureActiveEndpoint p.rollup).1 = rp := by rw [hens]
  have hd : p.ethClientIndex ≠ (env.ensureActiveEndpoint p.rollup).1.rollupIndex := by
    rw [h1]; exact fun h => hne h.symm
  have hu : index p.ethUrls (env.ensureActiveEndpoint p.rollup).1.rollupIndex = some url := by
    rw [h1]; exact hurl
  cases err with
  | none =>
    have he : (env.ethDialer (env.ensureActiveEndpoint p.rollup).1.networkTimeout url).2
        = none := by rw [h1, hdial]
    rw [EthClient_of_dial_swap env p url c h2 hd hu he hc]
    simp [h1, hdial, dialCount, closeCount]
  | some e =>
    have he : (env.ethDialer (env.ensureActiveEndpoint p.rollup).1.networkTimeout url).2
        = some e := by rw [h1, hdial]
    rw [EthClient_of_dial_err env p url e h2 (Or.inl hd) hu he]
    simp [h1, hdial, dialCount, closeTotal, hc]

/-- C1 (amended) at a concrete input: client `7` cached for index `0`, the selector
moves to index `1`, the dial to `"e1"` returns client `8`. -/
theorem EthClient_index_change_witness :
    (EthClient (envDials 1 8) (cachedAt 0 7)).trace =
      [Event.ensureActiveEndpoint, Event.ethDial 5 "e1" (some 8) none, Event.ethClose 7] ∧
    (EthClient (envDials 1 8) (cachedAt 0 7)).result = .ret (some 8, none) :=
  have h := EthClient_index_change (envDials 1 8) (cachedAt 0 7) 7 0 1
    { rollupIndex := 1, networkTimeout := 5, rest := 0 } "e1" (some 8) none
    rfl rfl rfl rfl (by decide) (by decide) rfl
  ⟨(h.2.2.1 rfl).1, (h.2.2.1 rfl).2.2.2⟩

/-! ## Dial failure -/

/-- Every error wraps itself. -/
theorem Error.wraps_self (e : Error) : Error.wraps e e = true := by
  unfold Error.wraps
  simp

/-- The error built by `fmt.Errorf (pre ++ ": %w") e` wraps `e`. -/
theorem Error.wraps_wrapf (pre : String) (e : Error) :
    Error.wraps (Error.wrapf pre e) e = true := by
  unfold Error.wraps
  split
  · rfl
  · simp [Error.wraps_self]

/-- C3: if during an `EthClient` call the dialer is invoked and returns the error `e`,
then `EthClient` returns a nil client and the error `"dialing eth client: %w"` wrapping
`e`, the cached client is the one cached before the call, and no `Close` is invoked. -/
theorem EthClient_dial_error (env : CallEnv) (p : ActiveL2EndpointProvider)
    (timeout : Nat) (url : String) (cl : Option Client) (e : Error)
    (h : Event.ethDial timeout url cl (some e) ∈ (EthClient env p).trace) :
    (EthClient env p).result =
      .ret (none, some (Error.wrapf "dialing eth client" e)) ∧
    Error.wraps (Error.wrapf "dialing eth client" e) e = true ∧
    (EthClient env p).state.currentEthClient = p.currentEthClient ∧
    closeTotal (EthClient env p).trace = 0 := by
  have key : (env.ethDialer (env.ensureActiveEndpoint p.rollup).1.networkTimeout url).2
        = some e ∧
      (env.ensureActiveEndpoint p.rollup).2 = none ∧
      (p.ethClientIndex ≠ (env.ensureActiveEndpoint p.rollup).1.rollupIndex ∨
        p.currentEthClient = none) ∧
      index p.ethUrls (env.ensureActiveEndpoint p.rollup).1.rollupIndex = some url := by
    rcases h2 : (env.ensureActiveEndpoint p.rollup).2 with _ | e2
    · rcases hu : index p.ethUrls (env.ensureActiveEndpoint p.rollup).1.rollupIndex
        with _ | ep
      · rcases hc : p.currentEthClient with _ | c
        · simp [EthClient, h2, hu, hc] at h
        · by_cases hi : p.ethClientIndex = (env.ensureActiveEndpoint p.rollup).1.rollupIndex
          · simp [EthClient, h2, hu, hc, hi] at h
          · simp [EthClient, h2, hu, hc, hi] at h
      · rcases he : (env.ethDialer
            (env.ensureActiveEndpoint p.rollup).1.networkTimeout ep).2 with _ | e3
        · rcases hc : p.currentEthClient with _ | c
          · simp [EthClient, h2, hu, hc, he] at h
          · by_cases hi : p.ethClientIndex = (env.ensureActiveEndpoint p.rollup).1.rollupIndex
            · simp [EthClient, h2, hu, hc, hi] at h
            · simp [EthClient, h2, hu, hc, hi, he] at h
        · rcases hc : p.currentEthClient with _ | c
          · simp [EthClient, h2, hu, hc, he] at h
            obtain ⟨-, rfl, -, rfl⟩ := h
            simp [he]
          · by_cases hi : p.ethClientIndex = (env.ensureActiveEndpoint p.rollup).1.rollupIndex
            · simp [EthClient, h2, hu, hc, hi] at h
            · simp [EthClient, h2, hu, hc, hi, he] at h
              obtain ⟨-, rfl, -, rfl⟩ := h
              simp [he, hi]
    · simp [EthClient, h2] at h
  obtain ⟨he, h2, hd, hu⟩ := key
  rw [EthClient_of_dial_err env p url e h2 hd hu he]
  exact ⟨rfl, Error.wraps_wrapf _ e, rfl, rfl⟩

/-- C3 at a concrete input: client `7` cached for index `0`, the selector moves to
index `1`, the dial to `"e1"` fails with `ext 3`. -/
theorem EthClient_dial_error_witness :
    (EthClient (envDialFails 1 3) (cachedAt 0 7)).result =
      .ret (none, some (Error.wrapf "dialing eth client" (Error.ext 3))) ∧
    (EthClient (envDialFails 1 3) (cachedAt 0 7)).state.currentEthClient = some 7 ∧
    closeTotal (EthClient (envDialFails 1 3) (cachedAt 0 7)).trace = 0 :=
  have h := EthClient_dial_error (envDialFails 1 3) (cachedAt 0 7) 5 "e1" none (Error.ext 3)
    (by decide)
  ⟨h.1, h.2.2.1, h.2.2.2⟩

/-! ## Construction and repeated calls -/

theorem dialCount_append (s t : List Event) :
    dialCount (s ++ t) = dialCount s + dialCount t := by
  simp [dialCount]

theorem closeTotal_append (s t : List Event) :
    closeTotal (s ++ t) = closeTotal s + closeTotal t := by
  simp [closeTotal]

theorem closeCount_append (c : Client) (s t : List Event) :
    closeCount c (s ++ t) = closeCount c s + closeCount c t := by
  simp [closeCount]

/-- A successful `EthClient` call on a receiver without cached client has dialed
`ethUrls[rollupIndex]` and installed what the dialer returned. -/
theorem EthClient_first_ok (env : CallEnv) (p : ActiveL2EndpointProvider)
    (cl : Option Client) (hc : p.currentEthClient = none)
    (h : (EthClient env p).result = .ret (cl, none)) :
    ∃ url, index p.ethUrls (EthClient env p).state.rollup.rollupIndex = some url ∧
      (EthClient env p).trace =
        [Event.ensureActiveEndpoint,
          Event.ethDial (EthClient env p).state.rollup.networkTimeout url cl none] ∧
      (EthClient env p).state.currentEthClient = cl ∧
      (EthClient env p).state.ethClientIndex = (EthClient env p).state.rollup.rollupIndex ∧
      (EthClient env p).state.ethUrls = p.ethUrls := by
  revert h
  refine EthClient_cases env p (fun r => r.result = .ret (cl, none) →
    ∃ url, index p.ethUrls r.state.rollup.rollupIndex = some url ∧
      r.trace = [Event.ensureActiveEndpoint,
        Event.ethDial r.state.rollup.networkTimeout url cl none] ∧
      r.state.currentEthClient = cl ∧
      r.state.ethClientIndex = r.state.rollup.rollupIndex ∧
      r.state.ethUrls = p.ethUrls) ?_ ?_ ?_ ?_ ?_ ?_
  · intro e _ h; simp at h
  · intro c _ _ hc2 _; rw [hc] at hc2; cases hc2
  · intro _ _ _ h; simp at h
  · intro url e _ _ _ _ h; simp at h
  · intro url c _ _ _ _ hc2 _; rw [hc] at hc2; cases hc2
  · intro url _ hu _ _ h
    simp only [Outcome.ret.injEq, Prod.mk.injEq, and_true] at h
    exact ⟨url, hu, by simp [h], h, rfl, rfl⟩

/-- What a successful construction has done: one call each of
`newActiveL2RollupProvider`, `ensureActiveEndpoint` and the dialer, the latter for
`ethUrls[rollupIndex]`; the dialed client is the cached one and the recorded index is
the active one. -/
theorem newActiveL2EndpointProvider_success (env : CtorEnv) (ethUrls rollupUrls : List String)
    (checkDuration networkTimeout : Nat) (ep : ActiveL2EndpointProvider)
    (h : (newActiveL2EndpointProvider env ethUrls rollupUrls checkDuration
      networkTimeout).result = .ret (some ep, none)) :
    ∃ url, index ethUrls ep.rollup.rollupIndex = some url ∧
      (newActiveL2EndpointProvider env ethUrls rollupUrls checkDuration networkTimeout).trace =
        [Event.newRollupProvider rollupUrls, Event.ensureActiveEndpoint,
          Event.ethDial ep.rollup.networkTimeout url ep.currentEthClient none] ∧
      ep.ethClientIndex = ep.rollup.rollupIndex ∧ ep.ethUrls = ethUrls ∧
      rollupUrls.length ≠ 0 ∧ ethUrls.length = rollupUrls.length := by
  unfold newActiveL2EndpointProvider at h ⊢
  by_cases h0 : rollupUrls.length = 0
  · simp [h0] at h
  by_cases h1 : ethUrls.length ≠ rollupUrls.length
  · simp [h0, h1] at h
  simp only [h0, h1, if_false] at h ⊢
  rcases hn : env.newActiveL2RollupProvider rollupUrls checkDuration networkTimeout
    with ⟨_ | rp, _ | e⟩
  · simp [hn] at h
  · simp [hn] at h
  · simp only [hn] at h ⊢
    rcases hr : (EthClient env.call
        { rollup := rp, currentEthClient := none, ethClientIndex := 0,
          ethUrls := ethUrls }).result with ⟨cl, _ | e⟩ | _
    · simp only [hr, Outcome.ret.injEq, Prod.mk.injEq, Option.some.injEq, and_true] at h ⊢
      obtain ⟨url, hu, ht, hcl, hi, hurls⟩ := EthClient_first_ok env.call _ cl rfl hr
      subst h
      refine ⟨url, ?_, ?_, hi, hurls, h0, by simpa using h1⟩
      · simpa using hu
      · rw [ht, hcl]
    · simp [hr] at h
    · simp [hr] at h
  · simp [hn] at h

/-- While the selector keeps the active index at the recorded one and a client is
cached, a sequence of `EthClient` calls dials nothing, closes nothing and returns the
cached client each time. -/
theorem runEthClient_keeps (envs : List CallEnv) (p : ActiveL2EndpointProvider)
    (t : List Event) (c : Client) (hc : p.currentEthClient = some c)
    (hk : EnsureKeeps p.ethClientIndex envs p) :
    dialCount (runEthClient envs p t).2.1 = dialCount t ∧
    closeTotal (runEthClient envs p t).2.1 = closeTotal t ∧
    (runEthClient envs p t).2.2 = List.replicate envs.length (.ret (some c, none)) ∧
    (runEthClient envs p t).1.currentEthClient = some c := by
  induction envs generalizing p t with
  | nil => simp [runEthClient, hc]
  | cons env envs ih =>
    obtain ⟨h2, hj, hrest⟩ := hk
    have hrun := EthClient_of_cached env p c h2 hj.symm hc
    rw [hrun] at hrest
    have := ih { p with rollup := (env.ensureActiveEndpoint p.rollup).1 }
      (t ++ [Event.ensureActiveEndpoint]) hc hrest
    simp only [runEthClient, hrun, List.length_cons, List.replicate_succ]
    refine ⟨?_, ?_, ?_, this.2.2.2⟩
    · rw [this.1, dialCount_append]; simp [dialCount]
    · rw [this.2.1, closeTotal_append]; simp [closeTotal]
    · rw [this.2.2.1]

/-- C2, as stated, fails when the construction-time dial returns a nil client with a
nil error: construction succeeds, and one further `EthClient` call with the active
index unchanged dials again, so the dialer has been invoked twice. -/
theorem newProvider_repeated_calls_counterexample :
    (newActiveL2EndpointProvider (ctorEnv (envDialsNil 0)) twoUrls twoRollupUrls 9 5).result =
      .ret (some freshProvider, none) ∧
    EnsureKeeps freshProvider.rollup.rollupIndex [envDialsNil 0] freshProvider ∧
    dialCount (runEthClient [envDialsNil 0] freshProvider
      (newActiveL2EndpointProvider (ctorEnv (envDialsNil 0)) twoUrls twoRollupUrls 9 5).trace).2.1
      = 2 := by
  refine ⟨by decide, ⟨rfl, rfl, trivial⟩, by decide⟩

/-- C2 (amended): for every provider returned by a successful construction whose
construction-time dial returned a non-nil client `c`, and every sequence of
subsequent `EthClient` calls during which `ensureActiveEndpoint` succeeds and the
active index never changes: the dialer has been invoked exactly once in total, that
dial returned `c`, no client `Close` has been invoked, and every call returns `c`. -/
theorem newProvider_repeated_calls (env : CtorEnv) (ethUrls rollupUrls : List String)
    (checkDuration networkTimeout : Nat) (ep : ActiveL2EndpointProvider) (c : Client)
    (envs : List CallEnv)
    (hnew : (newActiveL2EndpointProvider env ethUrls rollupUrls checkDuration
      networkTimeout).result = .ret (some ep, none))
    (hc : ep.currentEthClient = some c)
    (hk : EnsureKeeps ep.rollup.rollupIndex envs ep) :
    dialCount (runEthClient envs ep
      (newActiveL2EndpointProvider env ethUrls rollupUrls checkDuration
        networkTimeout).trace).2.1 = 1 ∧
    (∃ timeout url, Event.ethDial timeout url (some c) none ∈
      (newActiveL2EndpointProvider env ethUrls rollupUrls checkDuration
        networkTimeout).trace) ∧
    closeTotal (runEthClient envs ep
      (newActiveL2EndpointProvider env ethUrls rollupUrls checkDuration
        networkTimeout).trace).2.1 = 0 ∧
    (runEthClient envs ep
      (newActiveL2EndpointProvider env ethUrls rollupUrls checkDuration
        networkTimeout).trace).2.2 = List.replicate envs.length (.ret (some c, none)) := by
  obtain ⟨url, -, ht, hi, -, -, -⟩ :=
    newActiveL2EndpointProvider_success env ethUrls rollupUrls checkDuration networkTimeout ep hnew
  rw [← hi] at hk
  obtain ⟨hd, hcl, hres, -⟩ := runEthClient_keeps envs ep
    (newActiveL2EndpointProvider env ethUrls rollupUrls checkDuration networkTimeout).trace
    c hc hk
  refine ⟨?_, ⟨ep.rollup.networkTimeout, url, ?_⟩, ?_, hres⟩
  · rw [hd, ht]; simp [dialCount]
  · rw [ht, hc]; simp
  · rw [hcl, ht]; simp [closeTotal]

/-- C2 (amended) at a concrete input: construction over `["e0", "e1"]` with active
index `0` dials client `7`; three further calls with the index still `0` dial
nothing and return `7`. -/
theorem newProvider_repeated_calls_witness :
    dialCount (runEthClient [envDials 0 8, envDials 0 8, envDials 0 8] (cachedAt 0 7)
      (newActiveL2EndpointProvider (ctorEnv (envDials 0 7)) twoUrls twoRollupUrls 9 5).trace).2.1
      = 1 ∧
    (runEthClient [envDials 0 8, envDials 0 8, envDials 0 8] (cachedAt 0 7)
      (newActiveL2EndpointProvider (ctorEnv (envDials 0 7)) twoUrls twoRollupUrls 9 5).trace).2.2
      = [.ret (some 7, none), .ret (some 7, none), .ret (some 7, none)] :=
  have h := newProvider_repeated_calls (ctorEnv (envDials 0 7)) twoUrls twoRollupUrls 9 5
    (cachedAt 0 7) 7 [envDials 0 8, envDials 0 8, envDials 0 8] (by decide) rfl
    ⟨rfl, rfl, rfl, rfl, rfl, rfl, trivial⟩
  ⟨h.1, h.2.2.2⟩

/-- C6: with an empty `rollupUrls`, or with lists of different lengths,
`newActiveL2EndpointProvider` returns a nil provider and an error (`"empty rollup urls
list"` in the first case, `"number of eth urls and rollup urls mismatch"` otherwise)
and calls no collaborator at all: not `newActiveL2RollupProvider` (the only user of
the rollup dialer), and not the eth dialer. -/
theorem newActiveL2EndpointProvider_config_error (env : CtorEnv)
    (ethUrls rollupUrls : List String) (checkDuration networkTimeout : Nat)
    (h : rollupUrls.length = 0 ∨ ethUrls.length ≠ rollupUrls.length) :
    (∃ e, (newActiveL2EndpointProvider env ethUrls rollupUrls checkDuration
      networkTimeout).result = .ret (none, some e)) ∧
    (newActiveL2EndpointProvider env ethUrls rollupUrls checkDuration networkTimeout).trace
      = [] ∧
    (rollupUrls.length = 0 →
      (newActiveL2EndpointProvider env ethUrls rollupUrls checkDuration
        networkTimeout).result = .ret (none, some (Error.new "empty rollup urls list"))) ∧
    (rollupUrls.length ≠ 0 →
      (newActiveL2EndpointProvider env ethUrls rollupUrls checkDuration
        networkTimeout).result =
          .ret (none, some (Error.new "number of eth urls and rollup urls mismatch"))) := by
  unfold newActiveL2EndpointProvider
  by_cases h0 : rollupUrls.length = 0
  · simp [h0]
  · have h1 : ethUrls.length ≠ rollupUrls.length := h.resolve_left h0
    simp [h0, h1]

/-- C6 at a concrete input: two eth urls and one rollup url. -/
theorem newActiveL2EndpointProvider_config_error_witness :
    (newActiveL2EndpointProvider (ctorEnv (envDials 0 7)) twoUrls ["r0"] 9 5).trace = [] ∧
    (newActiveL2EndpointProvider (ctorEnv (envDials 0 7)) twoUrls ["r0"] 9 5).result =
      .ret (none, some (Error.new "number of eth urls and rollup urls mismatch")) :=
  have h := newActiveL2EndpointProvider_config_error (ctorEnv (envDials 0 7)) twoUrls ["r0"]
    9 5 (Or.inr (by decide))
  ⟨h.2.1, h.2.2.2 (by decide)⟩

/-- What a dial event in the trace of one `EthClient` call tells: the selector
succeeded, the url is `ethUrls[rollupIndex]`, the timeout is `networkTimeout`, and the
call returned according to the dialer's error. -/
theorem EthClient_dial_mem (env : CallEnv) (p : ActiveL2EndpointProvider)
    (timeout : Nat) (url : String) (cl : Option Client) (err : Option Error)
    (h : Event.ethDial timeout url cl err ∈ (EthClient env p).trace) :
    (env.ensureActiveEndpoint p.rollup).2 = none ∧
    index p.ethUrls (env.ensureActiveEndpoint p.rollup).1.rollupIndex = some url ∧
    timeout = (env.ensureActiveEndpoint p.rollup).1.networkTimeout ∧
    env.ethDialer timeout url = (cl, err) ∧
    (err = none → (EthClient env p).result = .ret (cl, none)) ∧
    (∀ e, err = some e → (EthClient env p).result =
      .ret (none, some (Error.wrapf "dialing eth client" e))) := by
  revert h
  refine EthClient_cases env p (fun r => Event.ethDial timeout url cl err ∈ r.trace →
    (env.ensureActiveEndpoint p.rollup).2 = none ∧
    index p.ethUrls (env.ensureActiveEndpoint p.rollup).1.rollupIndex = some url ∧
    timeout = (env.ensureActiveEndpoint p.rollup).1.networkTimeout ∧
    env.ethDialer timeout url = (cl, err) ∧
    (err = none → r.result = .ret (cl, none)) ∧
    (∀ e, err = some e → r.result =
      .ret (none, some (Error.wrapf "dialing eth client" e)))) ?_ ?_ ?_ ?_ ?_ ?_
  · intro e _ h; simp at h
  · intro c _ _ _ h; simp at h
  · intro _ _ _ h; simp at h
  · intro u e h2 _ hu he h
    simp only [List.mem_cons, Event.ethDial.injEq, List.mem_singleton, reduceCtorEq,
      false_or, List.not_mem_nil, or_false] at h
    obtain ⟨rfl, rfl, rfl, rfl⟩ := h
    refine ⟨h2, hu, rfl, ?_, ?_, ?_⟩
    · rw [← he]
    · intro h; cases h
    · intro e2 h; cases h; rfl
  · intro u c h2 _ hu he _ h
    simp only [List.mem_cons, Event.ethDial.injEq, List.mem_singleton, reduceCtorEq,
      false_or, List.not_mem_nil, or_false] at h
    obtain ⟨rfl, rfl, rfl, rfl⟩ := h
    refine ⟨h2, hu, rfl, ?_, ?_, ?_⟩
    · rw [← he]
    · intro _; rfl
    · intro e2 h; cases h
  · intro u h2 hu he _ h
    simp only [List.mem_cons, Event.ethDial.injEq, List.mem_singleton, reduceCtorEq,
      false_or, List.not_mem_nil, or_false] at h
    obtain ⟨rfl, rfl, rfl, rfl⟩ := h
    refine ⟨h2, hu, rfl, ?_, ?_, ?_⟩
    · rw [← he]
    · intro _; rfl
    · intro e2 h; cases h

/-- One `EthClient` call invokes the dialer at most once and closes at most one
client. -/
theorem EthClient_counts_le (env : CallEnv) (p : ActiveL2EndpointProvider) :
    dialCount (EthClient env p).trace ≤ 1 ∧ closeTotal (EthClient env p).trace ≤ 1 := by
  refine EthClient_cases env p (fun r => dialCount r.trace ≤ 1 ∧ closeTotal r.trace ≤ 1)
    ?_ ?_ ?_ ?_ ?_ ?_ <;> intros <;> simp [dialCount, closeTotal]

/-- Once the lists pass validation and the rollup provider is built, the constructor
runs one `EthClient` probe on the new receiver and returns according to its result. -/
theorem newActiveL2EndpointProvider_probe (env : CtorEnv)
    (ethUrls rollupUrls : List String) (checkDuration networkTimeout : Nat)
    (rp : ActiveL2RollupProvider)
    (hlen : ethUrls.length = rollupUrls.length) (hpos : 0 < rollupUrls.length)
    (hn : env.newActiveL2RollupProvider rollupUrls checkDuration networkTimeout =
      (some rp, none)) :
    (newActiveL2EndpointProvider env ethUrls rollupUrls checkDuration networkTimeout).trace =
      Event.newRollupProvider rollupUrls :: (EthClient env.call
        { rollup := rp, currentEthClient := none, ethClientIndex := 0,
          ethUrls := ethUrls }).trace ∧
    (∀ cl, (EthClient env.call
        { rollup := rp, currentEthClient := none, ethClientIndex := 0,
          ethUrls := ethUrls }).result = .ret (cl, none) →
      (newActiveL2EndpointProvider env ethUrls rollupUrls checkDuration
        networkTimeout).result = .ret (some (EthClient env.call
          { rollup := rp, currentEthClient := none, ethClientIndex := 0,
            ethUrls := ethUrls }).state, none)) ∧
    (∀ cl e, (EthClient env.call
        { rollup := rp, currentEthClient := none, ethClientIndex := 0,
          ethUrls := ethUrls }).result = .ret (cl, some e) →
      (newActiveL2EndpointProvider env ethUrls rollupUrls checkDuration
        networkTimeout).result =
          .ret (none, some (Error.wrapf "dialing eth client" e))) ∧
    ((EthClient env.call
        { rollup := rp, currentEthClient := none, ethClientIndex := 0,
          ethUrls := ethUrls }).result = .panic →
      (newActiveL2EndpointProvider env ethUrls rollupUrls checkDuration
        networkTimeout).result = .panic) := by
  have h0 : ¬ rollupUrls.length = 0 := by omega
  have h1 : ¬ ethUrls.length ≠ rollupUrls.length := by simp [hlen]
  unfold newActiveL2EndpointProvider
  simp only [h0, h1, if_false, hn]
  rcases hr : (EthClient env.call
      { rollup := rp, currentEthClient := none, ethClientIndex := 0,
        ethUrls := ethUrls }).result with ⟨cl, _ | e⟩ | _ <;> simp

/-- C7: for lists of one common length `N > 0`, `newActiveL2EndpointProvider` returns
a provider without error if and only if an eth dial is performed and returns a nil
error; any dial performed is the only one, and it goes to `ethUrls[a]` with `a` the
active index that `ensureActiveEndpoint` left on the freshly built rollup provider. -/
theorem newActiveL2EndpointProvider_ok_iff (env : CtorEnv)
    (ethUrls rollupUrls : List String) (checkDuration networkTimeout : Nat)
    (hlen : ethUrls.length = rollupUrls.length) (hpos : 0 < rollupUrls.length) :
    ((∃ ep, (newActiveL2EndpointProvider env ethUrls rollupUrls checkDuration
        networkTimeout).result = .ret (some ep, none)) ↔
      ∃ timeout url cl, Event.ethDial timeout url cl none ∈
        (newActiveL2EndpointProvider env ethUrls rollupUrls checkDuration
          networkTimeout).trace) ∧
    (∀ timeout url cl err, Event.ethDial timeout url cl err ∈
        (newActiveL2EndpointProvider env ethUrls rollupUrls checkDuration
          networkTimeout).trace →
      ∃ rp, env.newActiveL2RollupProvider rollupUrls checkDuration networkTimeout =
          (some rp, none) ∧
        (env.call.ensureActiveEndpoint rp).2 = none ∧
        index ethUrls (env.call.ensureActiveEndpoint rp).1.rollupIndex = some url) ∧
    dialCount (newActiveL2EndpointProvider env ethUrls rollupUrls checkDuration
      networkTimeout).trace ≤ 1 := by
  have h0 : ¬ rollupUrls.length = 0 := by omega
  have h1 : ¬ ethUrls.length ≠ rollupUrls.length := by simp [hlen]
  rcases hn : env.newActiveL2RollupProvider rollupUrls checkDuration networkTimeout
    with ⟨_ | rp, _ | e⟩
  · simp [newActiveL2EndpointProvider, h0, h1, hn, dialCount]
  · simp [newActiveL2EndpointProvider, h0, h1, hn, dialCount]
  · obtain ⟨htr, hok, herr, hpanic⟩ := newActiveL2EndpointProvider_probe env ethUrls
      rollupUrls checkDuration networkTimeout rp hlen hpos hn
    have hcnt := (EthClient_counts_le env.call
      { rollup := rp, currentEthClient := none, ethClientIndex := 0,
        ethUrls := ethUrls }).1
    have hmem := EthClient_dial_mem env.call
      { rollup := rp, currentEthClient := none, ethClientIndex := 0, ethUrls := ethUrls }
    rw [htr]
    refine ⟨⟨?_, ?_⟩, ?_, ?_⟩
    · rintro ⟨ep, hep⟩
      rcases hr : (EthClient env.call
          { rollup := rp, currentEthClient := none, ethClientIndex := 0,
            ethUrls := ethUrls }).result with ⟨cl, _ | e⟩ | _
      · obtain ⟨url, -, ht, -, -, -⟩ := EthClient_first_ok env.call _ cl rfl hr
        refine ⟨(EthClient env.call
          { rollup := rp, currentEthClient := none, ethClientIndex := 0,
            ethUrls := ethUrls }).state.rollup.networkTimeout, url, cl, ?_⟩
        rw [ht]
        exact List.mem_cons_of_mem _ (List.mem_cons_of_mem _ (List.mem_singleton.mpr rfl))
      · rw [herr cl e hr] at hep; simp at hep
      · rw [hpanic hr] at hep; simp at hep
    · rintro ⟨timeout, u, c, h⟩
      simp only [List.mem_cons, reduceCtorEq, false_or] at h
      exact ⟨_, hok c ((hmem timeout u c none h).2.2.2.2.1 rfl)⟩
    · intro timeout u c err h
      simp only [List.mem_cons, reduceCtorEq, false_or] at h
      obtain ⟨h2, hu, -⟩ := hmem timeout u c err h
      exact ⟨rp, rfl, h2, hu⟩
    · simpa [dialCount] using hcnt
  · simp [newActiveL2EndpointProvider, h0, h1, hn, dialCount]

/-- C7 at a concrete input: over `["e0", "e1"]` and `["r0", "r1"]` with active index
`0` and a dialer returning client `7`, construction succeeds and has dialed `"e0"`. -/
theorem newActiveL2EndpointProvider_ok_iff_witness :
    ((∃ ep, (newActiveL2EndpointProvider (ctorEnv (envDials 0 7)) twoUrls twoRollupUrls
        9 5).result = .ret (some ep, none)) ↔
      ∃ timeout url cl, Event.ethDial timeout url cl none ∈
        (newActiveL2EndpointProvider (ctorEnv (envDials 0 7)) twoUrls twoRollupUrls
          9 5).trace) ∧
    Event.ethDial 5 "e0" (some 7) none ∈
      (newActiveL2EndpointProvider (ctorEnv (envDials 0 7)) twoUrls twoRollupUrls
        9 5).trace :=
  ⟨(newActiveL2EndpointProvider_ok_iff (ctorEnv (envDials 0 7)) twoUrls twoRollupUrls 9 5
    (by decide) (by decide)).1, by decide⟩

/-! ## Close -/

/-- C8: on a provider that holds a cached eth client `c`, `Close` returns after
exactly two collaborator calls, `c.Close()` first and then `Close` of the embedded
`ActiveL2RollupProvider`; no dialer is invoked. -/
theorem Close_cached (p : ActiveL2EndpointProvider) (c : Client)
    (hc : p.currentEthClient = some c) :
    (Close p).trace = [Event.ethClose c, Event.rollupProviderClose] ∧
    (Close p).result = .ret () ∧
    closeCount c (Close p).trace = 1 ∧
    (Close p).trace.count Event.rollupProviderClose = 1 ∧
    dialCount (Close p).trace = 0 := by
  simp [Close, hc, closeCount, dialCount]

/-- C8 at a concrete input: the cached client is `7`. -/
theorem Close_cached_witness :
    (Close (cachedAt 0 7)).trace = [Event.ethClose 7, Event.rollupProviderClose] ∧
    (Close (cachedAt 0 7)).result = .ret () :=
  have h := Close_cached (cachedAt 0 7) 7 rfl
  ⟨h.1, h.2.1⟩

/-- C9 fails on the code: a provider built by `newActiveL2EndpointProvider` with a
dialer that returned a nil client and a nil error has no cached client, and `Close` on
it panics at `p.currentEthClient.Close()` before the embedded rollup provider is
closed. -/
theorem Close_nil_client_panics :
    (newActiveL2EndpointProvider (ctorEnv (envDialsNil 0)) twoUrls twoRollupUrls 9 5).result =
      .ret (some freshProvider, none) ∧
    freshProvider.currentEthClient = none ∧
    (Close freshProvider).result = .panic ∧
    (Close freshProvider).trace = [] := by
  decide

/-! ## The client returned after a failed redial -/

/-- C5 fails on the code: on a new provider over `["e0", "e1"]`, the first call (active
index `0`) dials `"e0"` and gets client `7`; the second call (active index `1`) dials
`"e1"`, which fails; the third call (active index still `1`) dials nothing and returns
`7`, the client dialed for `"e0"`, although `ethUrls[1]` is `"e1"`. -/
theorem runEthClient_stale_client :
    (runEthClient [envDials 0 7, envDialFails 1 3, envDials 1 8] freshProvider []).2.1 =
      [Event.ensureActiveEndpoint, Event.ethDial 5 "e0" (some 7) none,
        Event.ensureActiveEndpoint, Event.ethDial 5 "e1" none (some (Error.ext 3)),
        Event.ensureActiveEndpoint] ∧
    (runEthClient [envDials 0 7, envDialFails 1 3, envDials 1 8] freshProvider []).2.2 =
      [.ret (some 7, none),
        .ret (none, some (Error.wrapf "dialing eth client" (Error.ext 3))),
        .ret (some 7, none)] ∧
    (runEthClient [envDials 0 7, envDialFails 1 3, envDials 1 8]
      freshProvider []).1.rollup.rollupIndex = 1 ∧
    index twoUrls 1 = some "e1" := by
  decide

/-- A call of `EthClient` that does not return successfully leaves the cached client
in place and closes nothing. -/
theorem EthClient_failed_keeps (env : CallEnv) (p : ActiveL2EndpointProvider)
    (h : ∀ x, (EthClient env p).result ≠ .ret (x, none)) :
    (EthClient env p).state.currentEthClient = p.currentEthClient ∧
    closeTotal (EthClient env p).trace = 0 := by
  revert h
  refine EthClient_cases env p (fun r => (∀ x, r.result ≠ .ret (x, none)) →
    r.state.currentEthClient = p.currentEthClient ∧ closeTotal r.trace = 0)
    ?_ ?_ ?_ ?_ ?_ ?_
  · intro e _ _; simp [closeTotal]
  · intro c _ _ _ h; exact absurd rfl (h (some c))
  · intro _ _ _ _; simp [closeTotal]
  · intro url e _ _ _ _ _; simp [closeTotal]
  · intro url c _ _ _ _ _ h; exact absurd rfl (h _)
  · intro url _ _ _ _ h; exact absurd rfl (h _)

/-- A sequence of `EthClient` calls none of which returns successfully leaves the
cached client in place and closes nothing. -/
theorem runEthClient_failed_keeps (envs : List CallEnv) (p : ActiveL2EndpointProvider)
    (t : List Event)
    (h : ∀ r ∈ (runEthClient envs p t).2.2, ∀ x, r ≠ .ret (x, none)) :
    (runEthClient envs p t).1.currentEthClient = p.currentEthClient ∧
    closeTotal (runEthClient envs p t).2.1 = closeTotal t := by
  induction envs generalizing p t with
  | nil => simp [runEthClient]
  | cons env envs ih =>
    simp only [runEthClient, List.mem_cons, forall_eq_or_imp] at h ⊢
    obtain ⟨hk, hcl⟩ := EthClient_failed_keeps env p h.1
    obtain ⟨ih1, ih2⟩ := ih (EthClient env p).state (t ++ (EthClient env p).trace) h.2
    exact ⟨ih1.trans hk, by rw [ih2, closeTotal_append, hcl]; rfl⟩

/-- C4, as stated, fails when the active index has moved again at the next call: with
client `7` cached for index `0`, a redial to `"e1"` fails; at the next call the active
index is `0`, which differs from the recorded index `1`, so `"e0"` is dialed and the
call returns the new client `8`, not `7`. -/
theorem EthClient_after_failed_redial_counterexample :
    (EthClient (envDialFails 1 3) (cachedAt 0 7)).trace =
      [Event.ensureActiveEndpoint, Event.ethDial 5 "e1" none (some (Error.ext 3))] ∧
    (EthClient (envDialFails 1 3) (cachedAt 0 7)).result =
      .ret (none, some (Error.wrapf "dialing eth client" (Error.ext 3))) ∧
    (EthClient (envDials 0 8) (EthClient (envDialFails 1 3) (cachedAt 0 7)).state).trace =
      [Event.ensureActiveEndpoint, Event.ethDial 5 "e0" (some 8) none, Event.ethClose 7] ∧
    (EthClient (envDials 0 8) (EthClient (envDialFails 1 3) (cachedAt 0 7)).state).result =
      .ret (some 8, none) := by
  decide

/-- C4 (amended): if a client `c` is cached and an `EthClient` call redials and the
dial fails, then through any further calls that do not return successfully `c` stays
cached and is not closed, and the next call that returns successfully returns `c`
without dialing when the active index equals the provider's recorded index, and
otherwise dials `ethUrls[active index]`, closes `c` and returns the newly dialed
client. -/
theorem EthClient_after_failed_redial (p : ActiveL2EndpointProvider) (c : Client)
    (env0 : CallEnv) (timeout0 : Nat) (url0 : String) (cl0 : Option Client) (e0 : Error)
    (envs : List CallEnv) (env : CallEnv) (cl : Option Client)
    (hc : p.currentEthClient = some c)
    (hredial : Event.ethDial timeout0 url0 cl0 (some e0) ∈ (EthClient env0 p).trace)
    (hfails : ∀ r ∈ (runEthClient envs (EthClient env0 p).state
      (EthClient env0 p).trace).2.2, ∀ x, r ≠ .ret (x, none))
    (hok : (EthClient env (runEthClient envs (EthClient env0 p).state
      (EthClient env0 p).trace).1).result = .ret (cl, none)) :
    (runEthClient envs (EthClient env0 p).state
      (EthClient env0 p).trace).1.currentEthClient = some c ∧
    closeTotal (runEthClient envs (EthClient env0 p).state
      (EthClient env0 p).trace).2.1 = 0 ∧
    ((runEthClient envs (EthClient env0 p).state (EthClient env0 p).trace).1.ethClientIndex =
        (env.ensureActiveEndpoint (runEthClient envs (EthClient env0 p).state
          (EthClient env0 p).trace).1.rollup).1.rollupIndex →
      cl = some c ∧
      (EthClient env (runEthClient envs (EthClient env0 p).state
        (EthClient env0 p).trace).1).trace = [Event.ensureActiveEndpoint]) ∧
    ((runEthClient envs (EthClient env0 p).state (EthClient env0 p).trace).1.ethClientIndex ≠
        (env.ensureActiveEndpoint (runEthClient envs (EthClient env0 p).state
          (EthClient env0 p).trace).1.rollup).1.rollupIndex →
      ∃ url, index p.ethUrls (env.ensureActiveEndpoint (runEthClient envs
          (EthClient env0 p).state (EthClient env0 p).trace).1.rollup).1.rollupIndex =
            some url ∧
        (EthClient env (runEthClient envs (EthClient env0 p).state
          (EthClient env0 p).trace).1).trace =
          [Event.ensureActiveEndpoint,
            Event.ethDial (env.ensureActiveEndpoint (runEthClient envs
              (EthClient env0 p).state (EthClient env0 p).trace).1.rollup).1.networkTimeout
              url cl none,
            Event.ethClose c]) := by
  have hres0 := (EthClient_dial_mem env0 p timeout0 url0 cl0 (some e0) hredial).2.2.2.2.2
    e0 rfl
  obtain ⟨hkeep0, hclose0⟩ := EthClient_failed_keeps env0 p
    (fun x h => by rw [hres0] at h; simp at h)
  obtain ⟨hkeep, hclose⟩ := runEthClient_failed_keeps envs (EthClient env0 p).state
    (EthClient env0 p).trace hfails
  have hq : (runEthClient envs (EthClient env0 p).state
      (EthClient env0 p).trace).1.currentEthClient = some c := by
    rw [hkeep, hkeep0, hc]
  have hurls : ∀ (es : List CallEnv) (q : ActiveL2EndpointProvider) (t : List Event),
      (runEthClient es q t).1.ethUrls = q.ethUrls := by
    intro es
    induction es with
    | nil => intro q t; rfl
    | cons a es ih =>
      intro q t
      simp only [runEthClient]
      rw [ih]
      exact EthClient_cases a q (fun r => r.state.ethUrls = q.ethUrls)
        (fun _ _ => rfl) (fun _ _ _ _ => rfl) (fun _ _ _ => rfl) (fun _ _ _ _ _ _ => rfl)
        (fun _ _ _ _ _ _ _ => rfl) (fun _ _ _ _ _ => rfl)
  have hu0 : (EthClient env0 p).state.ethUrls = p.ethUrls :=
    EthClient_cases env0 p (fun r => r.state.ethUrls = p.ethUrls)
      (fun _ _ => rfl) (fun _ _ _ _ => rfl) (fun _ _ _ => rfl) (fun _ _ _ _ _ _ => rfl)
      (fun _ _ _ _ _ _ _ => rfl) (fun _ _ _ _ _ => rfl)
  have hqu : (runEthClient envs (EthClient env0 p).state
      (EthClient env0 p).trace).1.ethUrls = p.ethUrls := by
    rw [hurls, hu0]
  refine ⟨hq, by rw [hclose, hclose0], ?_⟩
  revert hok
  generalize (runEthClient envs (EthClient env0 p).state (EthClient env0 p).trace).1 = q
    at hq hqu ⊢
  refine EthClient_cases env q (fun r => r.result = .ret (cl, none) →
    (q.ethClientIndex = (env.ensureActiveEndpoint q.rollup).1.rollupIndex →
      cl = some c ∧ r.trace = [Event.ensureActiveEndpoint]) ∧
    (q.ethClientIndex ≠ (env.ensureActiveEndpoint q.rollup).1.rollupIndex →
      ∃ url, index p.ethUrls (env.ensureActiveEndpoint q.rollup).1.rollupIndex = some url ∧
        r.trace = [Event.ensureActiveEndpoint,
          Event.ethDial (env.ensureActiveEndpoint q.rollup).1.networkTimeout url cl none,
          Event.ethClose c])) ?_ ?_ ?_ ?_ ?_ ?_
  · intro e _ h; simp at h
  · intro c2 _ hi hc2 h
    rw [hq] at hc2
    simp only [Outcome.ret.injEq, Prod.mk.injEq, and_true] at h
    cases hc2
    exact ⟨fun _ => ⟨h.symm, rfl⟩, fun hne => absurd hi hne⟩
  · intro _ _ _ h; simp at h
  · intro url e _ _ _ _ h; simp at h
  · intro url c2 _ hi hu _ hc2 h
    rw [hq] at hc2
    simp only [Outcome.ret.injEq, Prod.mk.injEq, and_true] at h
    cases hc2
    rw [hqu] at hu
    exact ⟨fun heq => absurd heq hi, fun _ => ⟨url, hu, by rw [h]⟩⟩
  · intro url _ _ _ hc2 _
    rw [hq] at hc2; cases hc2

/-- C4 (amended) at a concrete input: client `7` cached for index `0`; the redial to
`"e1"` fails; one call fails in the selector; the next call, with the active index
still `1`, returns `7` without dialing. -/
theorem EthClient_after_failed_redial_witness :
    (runEthClient [envSelectFails 4 9] (EthClient (envDialFails 1 3) (cachedAt 0 7)).state
      (EthClient (envDialFails 1 3) (cachedAt 0 7)).trace).1.currentEthClient = some 7 ∧
    (EthClient (envDials 1 8) (runEthClient [envSelectFails 4 9]
      (EthClient (envDialFails 1 3) (cachedAt 0 7)).state
      (EthClient (envDialFails 1 3) (cachedAt 0 7)).trace).1).trace =
        [Event.ensureActiveEndpoint] :=
  have h := EthClient_after_failed_redial (cachedAt 0 7) 7 (envDialFails 1 3) 5 "e1" none
    (Error.ext 3) [envSelectFails 4 9] (envDials 1 8) (some 7) rfl (by decide)
    (by
      intro r hr x
      have hrun : (runEthClient [envSelectFails 4 9]
          (EthClient (envDialFails 1 3) (cachedAt 0 7)).state
          (EthClient (envDialFails 1 3) (cachedAt 0 7)).trace).2.2 =
          [.ret (none, some (Error.ext 4))] := by decide
      rw [hrun, List.mem_singleton] at hr
      rw [hr]
      simp)
    (by decide)
  ⟨h.1, (h.2.2.1 (by decide)).2⟩

/-! ## Handles: dialed, cached, closed -/

theorem dialedClients_append (s t : List Event) :
    dialedClients (s ++ t) = dialedClients s ++ dialedClients t := by
  simp [dialedClients, List.filterMap_append]

theorem dialedClients_nil : dialedClients [] = [] := rfl

theorem dialedClients_ensure (t : List Event) :
    dialedClients (Event.ensureActiveEndpoint :: t) = dialedClients t := rfl

theorem dialedClients_close (c : Client) (t : List Event) :
    dialedClients (Event.ethClose c :: t) = dialedClients t := rfl

theorem dialedClients_dial_ok (timeout : Nat) (url : String) (c : Client) (t : List Event) :
    dialedClients (Event.ethDial timeout url (some c) none :: t) = c :: dialedClients t := rfl

theorem dialedClients_dial_nil (timeout : Nat) (url : String) (err : Option Error)
    (t : List Event) :
    dialedClients (Event.ethDial timeout url none err :: t) = dialedClients t := rfl

theorem dialedClients_dial_err (timeout : Nat) (url : String) (cl : Option Client)
    (e : Error) (t : List Event) :
    dialedClients (Event.ethDial timeout url cl (some e) :: t) = dialedClients t := by
  cases cl <;> rfl

theorem closeCount_nil (c : Client) : closeCount c [] = 0 := rfl

theorem closeCount_ensure (c : Client) (t : List Event) :
    closeCount c (Event.ensureActiveEndpoint :: t) = closeCount c t := by
  simp [closeCount]

theorem closeCount_dial (c : Client) (timeout : Nat) (url : String) (cl : Option Client)
    (err : Option Error) (t : List Event) :
    closeCount c (Event.ethDial timeout url cl err :: t) = closeCount c t := by
  simp [closeCount]

theorem closeCount_close_self (c : Client) (t : List Event) :
    closeCount c (Event.ethClose c :: t) = closeCount c t + 1 := by
  simp [closeCount]

theorem closeCount_close_other (c c0 : Client) (t : List Event) (h : c0 ≠ c) :
    closeCount c (Event.ethClose c0 :: t) = closeCount c t := by
  simp [closeCount, List.count_cons, h]

/-- One `EthClient` call preserves the bookkeeping of handles: the cached handle has
been dialed and never closed, every other dialed handle has been closed exactly once,
and a handle that was never dialed was never closed; provided the handles the dialer
has returned with a nil error so far are pairwise distinct. -/
theorem EthClient_bookkeeping_step (env : CallEnv) (p : ActiveL2EndpointProvider)
    (t : List Event)
    (h1 : ∀ c, p.currentEthClient = some c → c ∈ dialedClients t ∧ closeCount c t = 0)
    (h2 : ∀ c, c ∈ dialedClients t → p.currentEthClient ≠ some c → closeCount c t = 1)
    (h3 : ∀ c, c ∉ dialedClients t → closeCount c t = 0)
    (hfresh : (dialedClients (t ++ (EthClient env p).trace)).Nodup) :
    (∀ c, (EthClient env p).state.currentEthClient = some c →
      c ∈ dialedClients (t ++ (EthClient env p).trace) ∧
      closeCount c (t ++ (EthClient env p).trace) = 0) ∧
    (∀ c, c ∈ dialedClients (t ++ (EthClient env p).trace) →
      (EthClient env p).state.currentEthClient ≠ some c →
      closeCount c (t ++ (EthClient env p).trace) = 1) ∧
    (∀ c, c ∉ dialedClients (t ++ (EthClient env p).trace) →
      closeCount c (t ++ (EthClient env p).trace) = 0) := by
  revert hfresh
  refine EthClient_cases env p (fun r => (dialedClients (t ++ r.trace)).Nodup →
    (∀ c, r.state.currentEthClient = some c →
      c ∈ dialedClients (t ++ r.trace) ∧ closeCount c (t ++ r.trace) = 0) ∧
    (∀ c, c ∈ dialedClients (t ++ r.trace) → r.state.currentEthClient ≠ some c →
      closeCount c (t ++ r.trace) = 1) ∧
    (∀ c, c ∉ dialedClients (t ++ r.trace) → closeCount c (t ++ r.trace) = 0))
    ?_ ?_ ?_ ?_ ?_ ?_
  · intro e _ _
    simp only [dialedClients_append, closeCount_append, dialedClients_ensure,
      dialedClients_nil, closeCount_ensure, closeCount_nil, List.append_nil, add_zero]
    exact ⟨h1, h2, h3⟩
  · intro c _ _ _ _
    simp only [dialedClients_append, closeCount_append, dialedClients_ensure,
      dialedClients_nil, closeCount_ensure, closeCount_nil, List.append_nil, add_zero]
    exact ⟨h1, h2, h3⟩
  · intro _ _ _ _
    simp only [dialedClients_append, closeCount_append, dialedClients_ensure,
      dialedClients_nil, closeCount_ensure, closeCount_nil, List.append_nil, add_zero]
    exact ⟨h1, h2, h3⟩
  · intro url e _ _ _ _ _
    simp only [dialedClients_append, closeCount_append, dialedClients_ensure,
      dialedClients_dial_err, closeCount_dial,
      dialedClients_nil, closeCount_ensure, closeCount_nil, List.append_nil, add_zero]
    exact ⟨h1, h2, h3⟩
  · intro url c0 _ _ _ _ hc0
    obtain ⟨hmem0, hcnt0⟩ := h1 c0 hc0
    generalize (env.ethDialer (env.ensureActiveEndpoint p.rollup).1.networkTimeout url).1 = cl
    rcases cl with _ | c1
    · intro _
      simp only [dialedClients_append, closeCount_append, dialedClients_ensure,
        dialedClients_dial_nil, dialedClients_close, closeCount_dial,
        dialedClients_nil, closeCount_ensure, List.append_nil]
      refine ⟨?_, ?_, ?_⟩
      · intro c hc; cases hc
      · intro c hc _
        by_cases hcc : c0 = c
        · subst hcc
          rw [closeCount_close_self, closeCount_nil, hcnt0]
        · have : p.currentEthClient ≠ some c := by
            rw [hc0]; intro h; exact hcc (Option.some.inj h)
          rw [closeCount_close_other c c0 [] hcc, closeCount_nil, h2 c hc this]
      · intro c hc
        have hcc : c0 ≠ c := by rintro rfl; exact hc hmem0
        rw [closeCount_close_other c c0 [] hcc, closeCount_nil, h3 c hc]
    · intro hfresh
      simp only [dialedClients_append, closeCount_append, dialedClients_ensure,
        dialedClients_dial_ok, dialedClients_close, closeCount_dial,
        dialedClients_nil, closeCount_ensure, List.mem_append, List.mem_singleton]
        at hfresh ⊢
      have hnew : c1 ∉ dialedClients t := by
        intro hin
        have := List.nodup_append.mp hfresh
        exact this.2.2 hin (List.mem_singleton.mpr rfl)
      have hne : c0 ≠ c1 := by rintro rfl; exact hnew hmem0
      refine ⟨?_, ?_, ?_⟩
      · intro c hc
        have hc : c1 = c := Option.some.inj hc
        subst hc
        refine ⟨Or.inr rfl, ?_⟩
        rw [closeCount_close_other c1 c0 [] hne, closeCount_nil, h3 c1 hnew]
      · intro c hc hcc
        rcases hc with hc | hc
        · by_cases h0 : c0 = c
          · subst h0
            rw [closeCount_close_self, closeCount_nil, hcnt0]
          · have : p.currentEthClient ≠ some c := by
              rw [hc0]; intro h; exact h0 (Option.some.inj h)
            rw [closeCount_close_other c c0 [] h0, closeCount_nil, h2 c hc this]
        · exact absurd (congrArg some hc.symm) hcc
      · intro c hc
        have hc' := not_or.mp hc
        have h0 : c0 ≠ c := by rintro rfl; exact hc'.1 hmem0
        rw [closeCount_close_other c c0 [] h0, closeCount_nil, h3 c hc'.1]
  · intro url _ _ _ hc0
    generalize (env.ethDialer (env.ensureActiveEndpoint p.rollup).1.networkTimeout url).1 = cl
    rcases cl with _ | c1
    · intro _
      simp only [dialedClients_append, closeCount_append, dialedClients_ensure,
        dialedClients_dial_nil, closeCount_dial,
        dialedClients_nil, closeCount_ensure, closeCount_nil, List.append_nil, add_zero]
      refine ⟨?_, ?_, h3⟩
      · intro c hc; cases hc
      · intro c hc _
        exact h2 c hc (by rw [hc0]; simp)
    · intro hfresh
      simp only [dialedClients_append, closeCount_append, dialedClients_ensure,
        dialedClients_dial_ok, closeCount_dial, closeCount_nil, add_zero,
        dialedClients_nil, closeCount_ensure, List.mem_append, List.mem_singleton]
        at hfresh ⊢
      have hnew : c1 ∉ dialedClients t := by
        intro hin
        have := List.nodup_append.mp hfresh
        exact this.2.2 hin (List.mem_singleton.mpr rfl)
      refine ⟨?_, ?_, ?_⟩
      · intro c hc
        have hc : c1 = c := Option.some.inj hc
        subst hc
        exact ⟨Or.inr rfl, h3 c1 hnew⟩
      · intro c hc hcc
        rcases hc with hc | hc
        · exact h2 c hc (by rw [hc0]; simp)
        · exact absurd (congrArg some hc.symm) hcc
      · intro c hc
        exact h3 c (not_or.mp hc).1

/-- The trace of a sequence of calls extends the trace it started from. -/
theorem runEthClient_trace_extends (envs : List CallEnv) (p : ActiveL2EndpointProvider)
    (t : List Event) : ∃ s, (runEthClient envs p t).2.1 = t ++ s := by
  induction envs generalizing p t with
  | nil => exact ⟨[], by simp [runEthClient]⟩
  | cons env envs ih =>
    obtain ⟨s, hs⟩ := ih (EthClient env p).state (t ++ (EthClient env p).trace)
    exact ⟨(EthClient env p).trace ++ s, by simp only [runEthClient, hs, List.append_assoc]⟩

/-- A sequence of `EthClient` calls preserves the bookkeeping of handles, provided the
handles returned by successful dials over the whole run are pairwise distinct. -/
theorem runEthClient_bookkeeping (envs : List CallEnv) (p : ActiveL2EndpointProvider)
    (t : List Event)
    (h1 : ∀ c, p.currentEthClient = some c → c ∈ dialedClients t ∧ closeCount c t = 0)
    (h2 : ∀ c, c ∈ dialedClients t → p.currentEthClient ≠ some c → closeCount c t = 1)
    (h3 : ∀ c, c ∉ dialedClients t → closeCount c t = 0)
    (hfresh : (dialedClients (runEthClient envs p t).2.1).Nodup) :
    (∀ c, (runEthClient envs p t).1.currentEthClient = some c →
      c ∈ dialedClients (runEthClient envs p t).2.1 ∧
      closeCount c (runEthClient envs p t).2.1 = 0) ∧
    (∀ c, c ∈ dialedClients (runEthClient envs p t).2.1 →
      (runEthClient envs p t).1.currentEthClient ≠ some c →
      closeCount c (runEthClient envs p t).2.1 = 1) ∧
    (∀ c, c ∉ dialedClients (runEthClient envs p t).2.1 →
      closeCount c (runEthClient envs p t).2.1 = 0) := by
  induction envs generalizing p t with
  | nil => exact ⟨h1, h2, h3⟩
  | cons env envs ih =>
    simp only [runEthClient] at hfresh ⊢
    obtain ⟨s, hs⟩ := runEthClient_trace_extends envs (EthClient env p).state
      (t ++ (EthClient env p).trace)
    have hpre : (dialedClients (t ++ (EthClient env p).trace)).Nodup := by
      rw [hs, dialedClients_append] at hfresh
      exact (List.nodup_append.mp hfresh).1
    obtain ⟨k1, k2, k3⟩ := EthClient_bookkeeping_step env p t h1 h2 h3 hpre
    exact ih (EthClient env p).state (t ++ (EthClient env p).trace) k1 k2 k3 hfresh

/-- C10: for every sequence of `EthClient` calls on a new provider (no client cached,
nothing dialed or closed yet), with arbitrary selector and dialer outcomes, if the
handles returned by successful dials are pairwise distinct, then afterwards every
handle the dialer has returned successfully is either the cached client and never
closed, or not cached and closed exactly once; so at most one dialed handle is
un-closed, and the cached client is a dialed handle that was never closed. -/
theorem runEthClient_handles (envs : List CallEnv) (p : ActiveL2EndpointProvider)
    (hnew : p.currentEthClient = none)
    (hfresh : (dialedClients (runEthClient envs p []).2.1).Nodup) :
    (∀ c, c ∈ dialedClients (runEthClient envs p []).2.1 →
      ((runEthClient envs p []).1.currentEthClient = some c ∧
        closeCount c (runEthClient envs p []).2.1 = 0) ∨
      ((runEthClient envs p []).1.currentEthClient ≠ some c ∧
        closeCount c (runEthClient envs p []).2.1 = 1)) ∧
    (∀ c d, c ∈ dialedClients (runEthClient envs p []).2.1 →
      d ∈ dialedClients (runEthClient envs p []).2.1 →
      closeCount c (runEthClient envs p []).2.1 = 0 →
      closeCount d (runEthClient envs p []).2.1 = 0 → c = d) ∧
    (∀ c, (runEthClient envs p []).1.currentEthClient = some c →
      c ∈ dialedClients (runEthClient envs p []).2.1 ∧
      closeCount c (runEthClient envs p []).2.1 = 0) := by
  obtain ⟨k1, k2, -⟩ := runEthClient_bookkeeping envs p []
    (fun c hc => by rw [hnew] at hc; cases hc)
    (fun c hc => by simp [dialedClients] at hc)
    (fun c _ => rfl) hfresh
  refine ⟨?_, ?_, k1⟩
  · intro c hc
    by_cases hcur : (runEthClient envs p []).1.currentEthClient = some c
    · exact Or.inl ⟨hcur, (k1 c hcur).2⟩
    · exact Or.inr ⟨hcur, k2 c hc hcur⟩
  · intro c d hc hd hc0 hd0
    have hcc : (runEthClient envs p []).1.currentEthClient = some c := by
      by_contra hne
      have := k2 c hc hne
      omega
    have hdd : (runEthClient envs p []).1.currentEthClient = some d := by
      by_contra hne
      have := k2 d hd hne
      omega
    rw [hcc] at hdd
    exact Option.some.inj hdd

/-- C10 at a concrete input: on a new provider over `["e0", "e1"]`, a dial of `"e0"`
returns `7`, a redial of `"e1"` returns `8`, a redial of `"e0"` fails; afterwards `8`
is cached and never closed and `7` is closed exactly once. -/
theorem runEthClient_handles_witness :
    (runEthClient [envDials 0 7, envDials 1 8, envDialFails 0 3]
      freshProvider []).1.currentEthClient = some 8 ∧
    closeCount 8 (runEthClient [envDials 0 7, envDials 1 8, envDialFails 0 3]
      freshProvider []).2.1 = 0 ∧
    closeCount 7 (runEthClient [envDials 0 7, envDials 1 8, envDialFails 0 3]
      freshProvider []).2.1 = 1 :=
  have h := runEthClient_handles [envDials 0 7, envDials 1 8, envDialFails 0 3]
    freshProvider rfl (by decide)
  have h8 := h.2.2 8 (by decide)
  ⟨by decide, h8.2, ((h.1 7 (by decide)).resolve_left (by decide)).2⟩

/-! ## Selector failure -/

/-- C16: if `ensureActiveEndpoint` returns the error `e`, then `EthClient` returns a
nil client and exactly `e`, its only collaborator call is `ensureActiveEndpoint` (no
dial, no `Close`), and `currentEthClient`, `ethClientIndex` and `ethUrls` are as before
the call. -/
theorem EthClient_ensure_error (env : CallEnv) (p : ActiveL2EndpointProvider) (e : Error)
    (h : (env.ensureActiveEndpoint p.rollup).2 = some e) :
    (EthClient env p).result = .ret (none, some e) ∧
    (EthClient env p).trace = [Event.ensureActiveEndpoint] ∧
    dialCount (EthClient env p).trace = 0 ∧
    closeTotal (EthClient env p).trace = 0 ∧
    (EthClient env p).state.currentEthClient = p.currentEthClient ∧
    (EthClient env p).state.ethClientIndex = p.ethClientIndex ∧
    (EthClient env p).state.ethUrls = p.ethUrls := by
  rw [EthClient_of_ensure_err env p e h]
  simp [dialCount, closeTotal]

/-- C16 at a concrete input: client `7` cached for index `0`, the selector fails with
`ext 4`. -/
theorem EthClient_ensure_error_witness :
    (EthClient (envSelectFails 4 9) (cachedAt 0 7)).result = .ret (none, some (Error.ext 4)) ∧
    (EthClient (envSelectFails 4 9) (cachedAt 0 7)).state.currentEthClient = some 7 :=
  have h := EthClient_ensure_error (envSelectFails 4 9) (cachedAt 0 7) (Error.ext 4) rfl
  ⟨h.1, h.2.2.2.2.1⟩

/-! ## After a failed redial, the recorded index has moved -/

/-- While every successful `ensureActiveEndpoint` leaves the active index at the
recorded one and a client is cached, a sequence of `EthClient` calls changes neither
the recorded index nor the cached client. -/
theorem runEthClient_stays (envs : List CallEnv) (p : ActiveL2EndpointProvider)
    (t : List Event) (c : Client) (j : Int)
    (hi : p.ethClientIndex = j) (hc : p.currentEthClient = some c)
    (hs : EnsureStays j envs p) :
    (runEthClient envs p t).1.ethClientIndex = j ∧
    (runEthClient envs p t).1.currentEthClient = some c ∧
    dialCount (runEthClient envs p t).2.1 = dialCount t := by
  induction envs generalizing p t with
  | nil => exact ⟨hi, hc, rfl⟩
  | cons env envs ih =>
    obtain ⟨hj, hrest⟩ := hs
    simp only [runEthClient]
    rcases h2 : (env.ensureActiveEndpoint p.rollup).2 with _ | e
    · have hidx := hj h2
      have hrun := EthClient_of_cached env p c h2 (hi.trans hidx.symm) hc
      rw [hrun] at hrest ⊢
      obtain ⟨a, b, d⟩ := ih { p with rollup := (env.ensureActiveEndpoint p.rollup).1 }
        (t ++ [Event.ensureActiveEndpoint]) hi hc hrest
      exact ⟨a, b, by rw [d, dialCount_append]; simp [dialCount]⟩
    · have hrun := EthClient_of_ensure_err env p e h2
      rw [hrun] at hrest ⊢
      obtain ⟨a, b, d⟩ := ih { p with rollup := (env.ensureActiveEndpoint p.rollup).1 }
        (t ++ [Event.ensureActiveEndpoint]) hi hc hrest
      exact ⟨a, b, by rw [d, dialCount_append]; simp [dialCount]⟩

/-- C12: if a client `c` is cached for index `i`, the selector moves the active index
to `j ≠ i` and the dial to `ethUrls[j]` fails, then after the call `ethClientIndex` is
`j` while the cached client is still `c`; and after any further calls during which
every successful `ensureActiveEndpoint` leaves the active index at `j`, a call in which
`ensureActiveEndpoint` succeeds with the active index `j` invokes the dialer zero
times and returns `c` without error. -/
theorem EthClient_failed_redial_sticks (p : ActiveL2EndpointProvider) (c : Client)
    (i j : Int) (env0 : CallEnv) (rp : ActiveL2RollupProvider) (url : String) (e : Error)
    (hc : p.currentEthClient = some c) (hi : p.ethClientIndex = i)
    (hens : env0.ensureActiveEndpoint p.rollup = (rp, none))
    (hj : rp.rollupIndex = j) (hne : j ≠ i)
    (hurl : index p.ethUrls j = some url)
    (hdial : (env0.ethDialer rp.networkTimeout url).2 = some e) :
    (EthClient env0 p).state.ethClientIndex = j ∧
    (EthClient env0 p).state.currentEthClient = some c ∧
    ∀ (envs : List CallEnv) (env : CallEnv),
      EnsureStays j envs (EthClient env0 p).state →
      (env.ensureActiveEndpoint (runEthClient envs (EthClient env0 p).state
        (EthClient env0 p).trace).1.rollup).2 = none →
      (env.ensureActiveEndpoint (runEthClient envs (EthClient env0 p).state
        (EthClient env0 p).trace).1.rollup).1.rollupIndex = j →
      (EthClient env (runEthClient envs (EthClient env0 p).state
        (EthClient env0 p).trace).1).trace = [Event.ensureActiveEndpoint] ∧
      dialCount (EthClient env (runEthClient envs (EthClient env0 p).state
        (EthClient env0 p).trace).1).trace = 0 ∧
      (EthClient env (runEthClient envs (EthClient env0 p).state
        (EthClient env0 p).trace).1).result = .ret (some c, none) := by
  subst hi hj
  have h2 : (env0.ensureActiveEndpoint p.rollup).2 = none := by rw [hens]
  have h1 : (env0.ensureActiveEndpoint p.rollup).1 = rp := by rw [hens]
  have hd : p.ethClientIndex ≠ (env0.ensureActiveEndpoint p.rollup).1.rollupIndex := by
    rw [h1]; exact fun h => hne h.symm
  have hu : index p.ethUrls (env0.ensureActiveEndpoint p.rollup).1.rollupIndex
      = some url := by
    rw [h1]; exact hurl
  have he : (env0.ethDialer (env0.ensureActiveEndpoint p.rollup).1.networkTimeout url).2
      = some e := by rw [h1, hdial]
  have hrun := EthClient_of_dial_err env0 p url e h2 (Or.inl hd) hu he
  have hidx : (EthClient env0 p).state.ethClientIndex = rp.rollupIndex := by
    rw [hrun, h1]
  have hcl : (EthClient env0 p).state.currentEthClient = some c := by
    rw [hrun]; exact hc
  refine ⟨hidx, hcl, ?_⟩
  intro envs env hs hok hstill
  obtain ⟨qi, qc, -⟩ := runEthClient_stays envs (EthClient env0 p).state
    (EthClient env0 p).trace c rp.rollupIndex hidx hcl hs
  rw [EthClient_of_cached env _ c hok (qi.trans hstill.symm) qc]
  simp [dialCount]

/-- C12 at a concrete input: client `7` cached for index `0`; the selector moves to
index `1` and the dial to `"e1"` fails; then one call fails in the selector; the next
call, with the active index still `1`, dials nothing and returns `7`. -/
theorem EthClient_failed_redial_sticks_witness :
    (EthClient (envDialFails 1 3) (cachedAt 0 7)).state.ethClientIndex = 1 ∧
    (EthClient (envDialFails 1 3) (cachedAt 0 7)).state.currentEthClient = some 7 ∧
    (EthClient (envDials 1 8) (runEthClient [envSelectFails 4 9]
      (EthClient (envDialFails 1 3) (cachedAt 0 7)).state
      (EthClient (envDialFails 1 3) (cachedAt 0 7)).trace).1).result = .ret (some 7, none) :=
  have h := EthClient_failed_redial_sticks (cachedAt 0 7) 7 0 1 (envDialFails 1 3)
    { rollupIndex := 1, networkTimeout := 5, rest := 0 } "e1" (Error.ext 3)
    rfl rfl rfl rfl (by decide) (by decide) rfl
  ⟨h.1, h.2.1,
    (h.2.2 [envSelectFails 4 9] (envDials 1 8) ⟨(fun h => absurd h (by decide)), trivial⟩
      rfl rfl).2.2⟩

/-! ## When the dialer is invoked -/

/-- C13, as stated, fails when the active index is out of range: on a provider over
`["e0", "e1"]` with no cached client, `ensureActiveEndpoint` succeeds and leaves the
active index at `5`; a dial is due, but the call panics at `p.ethUrls[5]` and the
dialer is not invoked. -/
theorem EthClient_dials_iff_counterexample :
    ((envDials 5 7).ensureActiveEndpoint freshProvider.rollup).2 = none ∧
    ((envDials 5 7).ensureActiveEndpoint freshProvider.rollup).1.rollupIndex = 5 ∧
    freshProvider.currentEthClient = none ∧
    index freshProvider.ethUrls 5 = none ∧
    dialCount (EthClient (envDials 5 7) freshProvider).trace = 0 ∧
    (EthClient (envDials 5 7) freshProvider).result = .panic := by
  decide

/-- C13 (amended): for every `EthClient` call in which `ensureActiveEndpoint` succeeds
and leaves the active index inside `ethUrls`, the dialer is invoked if and only if
`ethClientIndex` differs from the active index or no client is cached; it is then
invoked exactly once, every dial of the call has url `ethUrls[rollupIndex]` and
timeout `networkTimeout`, and at most one `Close` is invoked. -/
theorem EthClient_dials_iff (env : CallEnv) (p : ActiveL2EndpointProvider) (url : String)
    (hens : (env.ensureActiveEndpoint p.rollup).2 = none)
    (hurl : index p.ethUrls (env.ensureActiveEndpoint p.rollup).1.rollupIndex = some url) :
    (0 < dialCount (EthClient env p).trace ↔
      (p.ethClientIndex ≠ (env.ensureActiveEndpoint p.rollup).1.rollupIndex ∨
        p.currentEthClient = none)) ∧
    ((p.ethClientIndex ≠ (env.ensureActiveEndpoint p.rollup).1.rollupIndex ∨
        p.currentEthClient = none) → dialCount (EthClient env p).trace = 1) ∧
    (∀ timeout u cl err, Event.ethDial timeout u cl err ∈ (EthClient env p).trace →
      u = url ∧ timeout = (env.ensureActiveEndpoint p.rollup).1.networkTimeout) ∧
    closeTotal (EthClient env p).trace ≤ 1 := by
  refine ⟨?_, ?_, ?_, (EthClient_counts_le env p).2⟩
  · refine EthClient_cases env p (fun r => 0 < dialCount r.trace ↔
      (p.ethClientIndex ≠ (env.ensureActiveEndpoint p.rollup).1.rollupIndex ∨
        p.currentEthClient = none)) ?_ ?_ ?_ ?_ ?_ ?_
    · intro e h; rw [hens] at h; cases h
    · intro c _ hi hc; simp [dialCount, hi, hc]
    · intro _ _ hu; rw [hurl] at hu; cases hu
    · intro u e _ hd _ _; simp [dialCount, hd]
    · intro u c _ hd _ _ _; simp [dialCount, hd]
    · intro u _ _ _ hc; simp [dialCount, hc]
  · refine EthClient_cases env p (fun r =>
      (p.ethClientIndex ≠ (env.ensureActiveEndpoint p.rollup).1.rollupIndex ∨
        p.currentEthClient = none) → dialCount r.trace = 1) ?_ ?_ ?_ ?_ ?_ ?_
    · intro e h; rw [hens] at h; cases h
    · intro c _ hi hc hd
      rcases hd with hd | hd
      · exact absurd hi hd
      · rw [hc] at hd; cases hd
    · intro _ _ hu; rw [hurl] at hu; cases hu
    · intro u e _ _ _ _ _; simp [dialCount]
    · intro u c _ _ _ _ _ _; simp [dialCount]
    · intro u _ _ _ _ _; simp [dialCount]
  · intro timeout u cl err h
    obtain ⟨-, hu, ht, -⟩ := EthClient_dial_mem env p timeout u cl err h
    rw [hurl] at hu
    exact ⟨(Option.some.inj hu).symm, ht⟩

/-- C13 (amended) at a concrete input: client `7` cached for index `0`, the selector
moves to index `1`; the dialer is invoked once. -/
theorem EthClient_dials_iff_witness :
    dialCount (EthClient (envDials 1 8) (cachedAt 0 7)).trace = 1 :=
  (EthClient_dials_iff (envDials 1 8) (cachedAt 0 7) "e1" rfl (by decide)).2.1
    (Or.inl (by decide))

/-! ## A cached client stays cached -/

/-- With a dialer that returns a non-nil client whenever it returns a nil error, one
`EthClient` call on a provider with a cached client leaves a client cached. -/
theorem EthClient_keeps_cached (env : CallEnv) (p : ActiveL2EndpointProvider)
    (hd : DialsNonNil env) (hc : p.currentEthClient ≠ none) :
    (EthClient env p).state.currentEthClient ≠ none := by
  refine EthClient_cases env p (fun r => r.state.currentEthClient ≠ none)
    ?_ ?_ ?_ ?_ ?_ ?_
  · intro e _; exact hc
  · intro c _ _ _; exact hc
  · intro _ _ _; exact hc
  · intro u e _ _ _ _; exact hc
  · intro u c _ _ _ he _; exact hd _ u he
  · intro u _ _ he _; exact hd _ u he

/-- The same over a sequence of calls. -/
theorem runEthClient_keeps_cached (envs : List CallEnv) (p : ActiveL2EndpointProvider)
    (t : List Event) (hd : ∀ env ∈ envs, DialsNonNil env)
    (hc : p.currentEthClient ≠ none) :
    (runEthClient envs p t).1.currentEthClient ≠ none := by
  induction envs generalizing p t with
  | nil => exact hc
  | cons env envs ih =>
    simp only [runEthClient]
    exact ih (EthClient env p).state (t ++ (EthClient env p).trace)
      (fun e he => hd e (List.mem_cons_of_mem _ he))
      (EthClient_keeps_cached env p (hd env (List.mem_cons_self _ _)) hc)

/-- C14: assuming the dialer returns a non-nil client whenever it returns a nil error,
a provider with a cached eth client still has one after every `EthClient` call,
whatever the call's outcome, and therefore after each prefix of every sequence of
`EthClient` calls. -/
theorem runEthClient_never_uncached (envs : List CallEnv) (p : ActiveL2EndpointProvider)
    (t : List Event) (hd : ∀ env ∈ envs, DialsNonNil env)
    (hc : p.currentEthClient ≠ none) :
    (∀ env, DialsNonNil env → (EthClient env p).state.currentEthClient ≠ none) ∧
    ∀ n, (runEthClient (envs.take n) p t).1.currentEthClient ≠ none :=
  ⟨fun env h => EthClient_keeps_cached env p h hc,
    fun n => runEthClient_keeps_cached (envs.take n) p t
      (fun e he => hd e (List.mem_of_mem_take he)) hc⟩

theorem DialsNonNil_envDials (j : Int) (c : Client) : DialsNonNil (envDials j c) := by
  intro _ _ _ h
  cases h

theorem DialsNonNil_envDialFails (j : Int) (code : Nat) :
    DialsNonNil (envDialFails j code) := by
  intro _ _ h
  cases h

/-- C14 at a concrete input: client `7` cached for index `0`; a redial to `"e1"` fails,
then the active index is `0` again and `"e0"` is dialed; a client is cached after each
of the two calls. -/
theorem runEthClient_never_uncached_witness :
    (runEthClient ([envDialFails 1 3, envDials 0 8].take 1) (cachedAt 0 7)
      []).1.currentEthClient ≠ none ∧
    (runEthClient ([envDialFails 1 3, envDials 0 8].take 2) (cachedAt 0 7)
      []).1.currentEthClient ≠ none :=
  have h := (runEthClient_never_uncached [envDialFails 1 3, envDials 0 8] (cachedAt 0 7) []
    (by
      intro env he
      simp only [List.mem_cons, List.mem_singleton, List.not_mem_nil, or_false] at he
      rcases he with rfl | rfl
      · exact DialsNonNil_envDialFails 1 3
      · exact DialsNonNil_envDials 0 8)
    (by decide)).2
  ⟨h 1, h 2⟩

/-! ## Index bounds -/

/-- An index that `index` resolves lies inside the list. -/
theorem index_some_range (xs : List String) (i : Int) (url : String)
    (h : index xs i = some url) : 0 ≤ i ∧ i < xs.length := by
  unfold index at h
  by_cases h0 : 0 ≤ i
  · rw [if_pos h0] at h
    have hlt : i.toNat < xs.length := by
      by_contra hge
      rw [List.getElem?_eq_none (by omega)] at h
      cases h
    exact ⟨h0, by omega⟩
  · rw [if_neg h0] at h; cases h

/-- An index inside the list is resolved by `index`. -/
theorem index_ne_none (xs : List String) (i : Int) (h0 : 0 ≤ i) (h1 : i < xs.length) :
    index xs i ≠ none := by
  unfold index
  rw [if_pos h0]
  have hlt : i.toNat < xs.length := by omega
  rw [List.getElem?_eq_getElem hlt]
  simp

/-- One `EthClient` call with the active index in range does not panic, keeps
`ethUrls` and keeps the recorded index in range. -/
theorem EthClient_in_range_step (env : CallEnv) (p : ActiveL2EndpointProvider) (n : Nat)
    (hlen : p.ethUrls.length = n)
    (hidx : 0 ≤ p.ethClientIndex ∧ p.ethClientIndex < n)
    (hr : (env.ensureActiveEndpoint p.rollup).2 = none →
      0 ≤ (env.ensureActiveEndpoint p.rollup).1.rollupIndex ∧
      (env.ensureActiveEndpoint p.rollup).1.rollupIndex < n) :
    (EthClient env p).state.ethUrls = p.ethUrls ∧
    (EthClient env p).result ≠ .panic ∧
    0 ≤ (EthClient env p).state.ethClientIndex ∧
    (EthClient env p).state.ethClientIndex < n := by
  refine EthClient_cases env p (fun r => r.state.ethUrls = p.ethUrls ∧
    r.result ≠ .panic ∧ 0 ≤ r.state.ethClientIndex ∧ r.state.ethClientIndex < n)
    ?_ ?_ ?_ ?_ ?_ ?_
  · intro e _; exact ⟨rfl, by simp, hidx⟩
  · intro c _ _ _; exact ⟨rfl, by simp, hidx⟩
  · intro h2 _ hu
    have := hr h2
    exact absurd hu (index_ne_none _ _ this.1 (by rw [hlen]; exact this.2))
  · intro u e h2 _ _ _; exact ⟨rfl, by simp, hr h2⟩
  · intro u c h2 _ _ _ _; exact ⟨rfl, by simp, hr h2⟩
  · intro u h2 _ _ _; exact ⟨rfl, by simp, hr h2⟩

/-- The same over a sequence of calls. -/
theorem runEthClient_in_range (envs : List CallEnv) (p : ActiveL2EndpointProvider)
    (t : List Event) (n : Nat) (hlen : p.ethUrls.length = n)
    (hidx : 0 ≤ p.ethClientIndex ∧ p.ethClientIndex < n)
    (hr : EnsureInRange n envs p) :
    (runEthClient envs p t).1.ethUrls = p.ethUrls ∧
    (∀ r ∈ (runEthClient envs p t).2.2, r ≠ .panic) ∧
    0 ≤ (runEthClient envs p t).1.ethClientIndex ∧
    (runEthClient envs p t).1.ethClientIndex < n := by
  induction envs generalizing p t with
  | nil => exact ⟨rfl, by simp [runEthClient], hidx⟩
  | cons env envs ih =>
    obtain ⟨hnow, hrest⟩ := hr
    obtain ⟨hu, hp, hi0, hi1⟩ := EthClient_in_range_step env p n hlen hidx hnow
    obtain ⟨a, b, c, d⟩ := ih (EthClient env p).state (t ++ (EthClient env p).trace)
      (by rw [hu]; exact hlen) ⟨hi0, hi1⟩ hrest
    simp only [runEthClient, List.mem_cons, forall_eq_or_imp]
    exact ⟨a.trans hu, ⟨hp, b⟩, c, d⟩

/-- C15: for every provider `ep` built by `newActiveL2EndpointProvider` from `ethUrls`
and `rollupUrls`, the two lists have one common length `N > 0` and, after every
sequence of `EthClient` calls, `ep.ethUrls` is still `ethUrls`; and if every successful
`ensureActiveEndpoint` leaves `rollupIndex` in `[0, N)`, then no `EthClient` call panics
(the access `ethUrls[ethClientIndex]` is in bounds) and `ethClientIndex` is in `[0, N)`
at construction and after every call. -/
theorem newProvider_index_in_range (env : CtorEnv) (ethUrls rollupUrls : List String)
    (checkDuration networkTimeout : Nat) (ep : ActiveL2EndpointProvider)
    (envs : List CallEnv)
    (hnew : (newActiveL2EndpointProvider env ethUrls rollupUrls checkDuration
      networkTimeout).result = .ret (some ep, none))
    (hr : EnsureInRange rollupUrls.length envs ep) :
    ethUrls.length = rollupUrls.length ∧ 0 < rollupUrls.length ∧
    ep.ethUrls = ethUrls ∧
    (0 ≤ ep.ethClientIndex ∧ ep.ethClientIndex < rollupUrls.length) ∧
    (runEthClient envs ep
      (newActiveL2EndpointProvider env ethUrls rollupUrls checkDuration
        networkTimeout).trace).1.ethUrls = ethUrls ∧
    (∀ r ∈ (runEthClient envs ep
      (newActiveL2EndpointProvider env ethUrls rollupUrls checkDuration
        networkTimeout).trace).2.2, r ≠ .panic) ∧
    0 ≤ (runEthClient envs ep
      (newActiveL2EndpointProvider env ethUrls rollupUrls checkDuration
        networkTimeout).trace).1.ethClientIndex ∧
    (runEthClient envs ep
      (newActiveL2EndpointProvider env ethUrls rollupUrls checkDuration
        networkTimeout).trace).1.ethClientIndex < rollupUrls.length := by
  obtain ⟨url, hu, -, hi, hurls, h0, hlen⟩ :=
    newActiveL2EndpointProvider_success env ethUrls rollupUrls checkDuration networkTimeout
      ep hnew
  have hrange := index_some_range ethUrls ep.rollup.rollupIndex url hu
  have hidx : 0 ≤ ep.ethClientIndex ∧ ep.ethClientIndex < rollupUrls.length := by
    rw [hi, ← hlen]; exact hrange
  obtain ⟨a, b, c, d⟩ := runEthClient_in_range envs ep
    (newActiveL2EndpointProvider env ethUrls rollupUrls checkDuration networkTimeout).trace
    rollupUrls.length (by rw [hurls]; exact hlen) hidx hr
  exact ⟨hlen, Nat.pos_of_ne_zero h0, hurls, hidx, a.trans hurls, b, c, d⟩

/-- C15 at a concrete input: construction over `["e0", "e1"]` and `["r0", "r1"]` with
active index `0`, then a call with active index `1` and a call with active index `0`. -/
theorem newProvider_index_in_range_witness :
    (∀ r ∈ (runEthClient [envDials 1 8, envDialFails 0 3] (cachedAt 0 7)
      (newActiveL2EndpointProvider (ctorEnv (envDials 0 7)) twoUrls twoRollupUrls
        9 5).trace).2.2, r ≠ .panic) ∧
    (runEthClient [envDials 1 8, envDialFails 0 3] (cachedAt 0 7)
      (newActiveL2EndpointProvider (ctorEnv (envDials 0 7)) twoUrls twoRollupUrls
        9 5).trace).1.ethClientIndex < twoRollupUrls.length :=
  have h := newProvider_index_in_range (ctorEnv (envDials 0 7)) twoUrls twoRollupUrls 9 5
    (cachedAt 0 7) [envDials 1 8, envDialFails 0 3] (by decide)
    ⟨(fun _ => by decide), (fun _ => by decide), trivial⟩
  ⟨h.2.2.2.2.2.1, h.2.2.2.2.2.2.2⟩

/-! ## Close after construction -/

/-- The cached client of a successfully constructed provider is what the dialer
returned, with a nil error, during the construction-time probe. -/
theorem newActiveL2EndpointProvider_dialed (env : CtorEnv) (ethUrls rollupUrls : List String)
    (checkDuration networkTimeout : Nat) (ep : ActiveL2EndpointProvider)
    (h : (newActiveL2EndpointProvider env ethUrls rollupUrls checkDuration
      networkTimeout).result = .ret (some ep, none)) :
    ∃ timeout url, env.call.ethDialer timeout url = (ep.currentEthClient, none) := by
  obtain ⟨-, -, -, -, -, h0, hlen⟩ :=
    newActiveL2EndpointProvider_success env ethUrls rollupUrls checkDuration networkTimeout
      ep h
  rcases hn : env.newActiveL2RollupProvider rollupUrls checkDuration networkTimeout
    with ⟨_ | rp, _ | e⟩
  · simp [newActiveL2EndpointProvider, h0, hlen, hn] at h
  · simp [newActiveL2EndpointProvider, h0, hlen, hn] at h
  · obtain ⟨-, hok, herr, hpanic⟩ := newActiveL2EndpointProvider_probe env ethUrls
      rollupUrls checkDuration networkTimeout rp hlen (Nat.pos_of_ne_zero h0) hn
    rcases hr : (EthClient env.call
        { rollup := rp, currentEthClient := none, ethClientIndex := 0,
          ethUrls := ethUrls }).result with ⟨cl, _ | e⟩ | _
    · rw [hok cl hr] at h
      simp only [Outcome.ret.injEq, Prod.mk.injEq, Option.some.injEq, and_true] at h
      obtain ⟨url, -, ht, hcl, -, -⟩ := EthClient_first_ok env.call _ cl rfl hr
      have hmem : Event.ethDial (EthClient env.call
          { rollup := rp, currentEthClient := none, ethClientIndex := 0,
            ethUrls := ethUrls }).state.rollup.networkTimeout url cl none ∈
          (EthClient env.call
            { rollup := rp, currentEthClient := none, ethClientIndex := 0,
              ethUrls := ethUrls }).trace := by
        rw [ht]
        exact List.mem_cons_of_mem _ (List.mem_singleton.mpr rfl)
      have hdial := (EthClient_dial_mem env.call _ _ url cl none hmem).2.2.2.1
      rw [← h, hcl]
      exact ⟨_, url, hdial⟩
    · rw [herr cl e hr] at h; simp at h
    · rw [hpanic hr] at h; simp at h
  · simp [newActiveL2EndpointProvider, h0, hlen, hn] at h

/-- C17: assuming the dialer returns a non-nil client whenever it returns a nil
error, every provider returned without error by `newActiveL2EndpointProvider` has a
cached eth client and `ethClientIndex = rollupIndex`, and `Close` on it returns without
panicking, also after any sequence of `EthClient` calls. -/
theorem newProvider_close_safe (env : CtorEnv) (ethUrls rollupUrls : List String)
    (checkDuration networkTimeout : Nat) (ep : ActiveL2EndpointProvider)
    (envs : List CallEnv)
    (hd0 : DialsNonNil env.call) (hd : ∀ e ∈ envs, DialsNonNil e)
    (hnew : (newActiveL2EndpointProvider env ethUrls rollupUrls checkDuration
      networkTimeout).result = .ret (some ep, none)) :
    ep.currentEthClient ≠ none ∧
    ep.ethClientIndex = ep.rollup.rollupIndex ∧
    (Close ep).result = .ret () ∧
    (Close (runEthClient envs ep
      (newActiveL2EndpointProvider env ethUrls rollupUrls checkDuration
        networkTimeout).trace).1).result = .ret () := by
  obtain ⟨timeout, url, hdial⟩ := newActiveL2EndpointProvider_dialed env ethUrls rollupUrls
    checkDuration networkTimeout ep hnew
  have hc : ep.currentEthClient ≠ none := by
    have := hd0 timeout url (by rw [hdial])
    rw [hdial] at this
    exact this
  obtain ⟨-, -, -, hi, -, -, -⟩ :=
    newActiveL2EndpointProvider_success env ethUrls rollupUrls checkDuration networkTimeout
      ep hnew
  have hclose : ∀ q : ActiveL2EndpointProvider, q.currentEthClient ≠ none →
      (Close q).result = .ret () := by
    intro q hq
    rcases hcq : q.currentEthClient with _ | c
    · exact absurd hcq hq
    · simp [Close, hcq]
  exact ⟨hc, hi, hclose ep hc,
    hclose _ (runEthClient_keeps_cached envs ep _ hd hc)⟩

/-- C17 at a concrete input: construction over `["e0", "e1"]` and `["r0", "r1"]` dials
client `7`; after a successful redial to `"e1"` and a failed redial to `"e0"`, `Close`
returns. -/
theorem newProvider_close_safe_witness :
    (Close (cachedAt 0 7)).result = .ret () ∧
    (Close (runEthClient [envDials 1 8, envDialFails 0 3] (cachedAt 0 7)
      (newActiveL2EndpointProvider (ctorEnv (envDials 0 7)) twoUrls twoRollupUrls
        9 5).trace).1).result = .ret () :=
  have h := newProvider_close_safe (ctorEnv (envDials 0 7)) twoUrls twoRollupUrls 9 5
    (cachedAt 0 7) [envDials 1 8, envDialFails 0 3] (DialsNonNil_envDials 0 7)
    (by
      intro env he
      simp only [List.mem_cons, List.mem_singleton, List.not_mem_nil, or_false] at he
      rcases he with rfl | rfl
      · exact DialsNonNil_envDials 1 8
      · exact DialsNonNil_envDialFails 0 3)
    (by decide)
  ⟨h.2.2.1, h.2.2.2⟩

end Dial
